import Mathlib

/-!
# Verification of the StegAgents Execution Warrant protocol

Shallow embedding of `scripts/mint_warrant.py` (the Issuer) and
`src/warrant_verify.py` (the Verifier), together with proofs of the
properties stated in the specification.

Modelling conventions:
* JSON-like Python dicts are modelled by the inductive `JValue`
  (objects as association lists, as Python dicts preserve insertion order).
* `datetime` timestamps are modelled at second precision by epoch seconds
  (`Int`); the Gregorian conversions below follow CPython's
  `datetime._ymd2ord` / `_ord2ymd` algorithms.
* Ed25519 is modelled as an ideal signature scheme: a signature is the pair
  of the signing key handle and the signed message, and verification checks
  that pair.  Key handles are abstract `Nat`s; base64 transport strings are
  modelled by an explicit, invertible textual codec.
* Python exceptions are modelled with `Except`; the `try/except` wrapper of
  `verify_warrant` becomes a total function returning `WarrantDecision`.
-/

/-! ## Calendar arithmetic (model of CPython `datetime` internals) -/

/-- Model of CPython `datetime._is_leap`. -/
def _is_leap (y : Int) : Prop := y % 4 = 0 ∧ (y % 100 ≠ 0 ∨ y % 400 = 0)

instance (y : Int) : Decidable (_is_leap y) := by unfold _is_leap; infer_instance

/-- Model of CPython `datetime._is_leap` as a Bool. -/
def isLeapB (y : Int) : Bool := decide (_is_leap y)

/-- Model of CPython `_days_before_month`: days in the year preceding month
    `m` (1-12), as a cumulative table. -/
def _days_before_month (b : Bool) (m : Int) : Int :=
  (if m ≤ 1 then 0 else if m = 2 then 31 else if m = 3 then 59
   else if m = 4 then 90 else if m = 5 then 120 else if m = 6 then 151
   else if m = 7 then 181 else if m = 8 then 212 else if m = 9 then 243
   else if m = 10 then 273 else if m = 11 then 304 else 334)
  + (if b ∧ 3 ≤ m then 1 else 0)

/-- Model of CPython `_days_in_month`. -/
def _days_in_month (b : Bool) (m : Int) : Int :=
  if m = 2 then (if b then 29 else 28)
  else if m = 4 ∨ m = 6 ∨ m = 9 ∨ m = 11 then 30 else 31

/-- Model of CPython `_ymd2ord`: proleptic Gregorian ordinal (0001-01-01 is
    day 1). -/
def _ymd2ord (y m d : Int) : Int :=
  365 * (y - 1) + (y - 1) / 4 - (y - 1) / 100 + (y - 1) / 400
    + _days_before_month (isLeapB y) m + d

/-- Month and days-before-month from a 0-based day-of-year: comparison chain
    equivalent to the bisection loop of CPython `_ord2ymd`. -/
def monthDbm (b : Bool) (n : Int) : Int × Int :=
  if n < 31 then (1, 0)
  else if n < 59 + (if b then 1 else 0) then (2, 31)
  else if n < 90 + (if b then 1 else 0) then (3, 59 + (if b then 1 else 0))
  else if n < 120 + (if b then 1 else 0) then (4, 90 + (if b then 1 else 0))
  else if n < 151 + (if b then 1 else 0) then (5, 120 + (if b then 1 else 0))
  else if n < 181 + (if b then 1 else 0) then (6, 151 + (if b then 1 else 0))
  else if n < 212 + (if b then 1 else 0) then (7, 181 + (if b then 1 else 0))
  else if n < 243 + (if b then 1 else 0) then (8, 212 + (if b then 1 else 0))
  else if n < 273 + (if b then 1 else 0) then (9, 243 + (if b then 1 else 0))
  else if n < 304 + (if b then 1 else 0) then (10, 273 + (if b then 1 else 0))
  else if n < 334 + (if b then 1 else 0) then (11, 304 + (if b then 1 else 0))
  else (12, 334 + (if b then 1 else 0))

/-- Core of CPython `_ord2ymd` after its divmod cascade by 146097 / 36524 /
    1461 / 365 days. -/
def _ord2ymdCore (n400 n100 n4 n1 n : Int) : Int × Int × Int :=
  if n1 = 4 ∨ n100 = 4 then (400 * n400 + 100 * n100 + 4 * n4 + n1, 12, 31)
  else
    (400 * n400 + 100 * n100 + 4 * n4 + n1 + 1,
     (monthDbm (decide (n1 = 3 ∧ (n4 ≠ 24 ∨ n100 = 3))) n).1,
     n - (monthDbm (decide (n1 = 3 ∧ (n4 ≠ 24 ∨ n100 = 3))) n).2 + 1)

/-- Model of CPython `_ord2ymd`. -/
def _ord2ymd (nord : Int) : Int × Int × Int :=
  _ord2ymdCore ((nord - 1) / 146097) ((nord - 1) % 146097 / 36524)
    ((nord - 1) % 146097 % 36524 / 1461) ((nord - 1) % 146097 % 36524 % 1461 / 365)
    ((nord - 1) % 146097 % 36524 % 1461 % 365)

theorem epoch_ordinal : _ymd2ord 1970 1 1 = 719163 := by decide

set_option maxHeartbeats 1600000 in
theorem monthDbm_spec (b : Bool) (n : Int) (h0 : 0 ≤ n)
    (h1 : n < 365 + (if b then 1 else 0)) :
    1 ≤ (monthDbm b n).1 ∧ (monthDbm b n).1 ≤ 12 ∧
    _days_before_month b (monthDbm b n).1 = (monthDbm b n).2 ∧
    (monthDbm b n).2 ≤ n ∧
    n < (monthDbm b n).2 + _days_in_month b (monthDbm b n).1 := by
  rcases hmd : monthDbm b n with ⟨m, dbm⟩
  dsimp only
  cases b <;> norm_num at h1 <;>
    · unfold monthDbm at hmd
      simp only [Bool.false_eq_true, Bool.true_eq_false, if_true, if_false] at hmd
      split_ifs at hmd <;>
        · injection hmd with e1 e2
          subst e1
          subst e2
          refine ⟨by norm_num, by norm_num, by decide, by omega, ?_⟩
          norm_num [_days_in_month]
          omega

theorem isLeapB_year (n400 n100 n4 n1 : Int) (hb100 : 0 ≤ n100) (hb100' : n100 ≤ 3)
    (hb4 : 0 ≤ n4) (hb4' : n4 ≤ 24) (hb1 : 0 ≤ n1) (hb1' : n1 ≤ 3) :
    isLeapB (400 * n400 + 100 * n100 + 4 * n4 + n1 + 1)
      = decide (n1 = 3 ∧ (n4 ≠ 24 ∨ n100 = 3)) := by
  unfold isLeapB
  rw [decide_eq_decide]
  unfold _is_leap
  omega

set_option maxHeartbeats 1000000 in
theorem ord2ymdCore_spec (n0 n400 r400 n100 r100 n4 r4 n1 n : Int)
    (h1 : n0 = 146097 * n400 + r400) (h2 : 0 ≤ r400) (h3 : r400 < 146097)
    (h4 : r400 = 36524 * n100 + r100) (h5 : 0 ≤ r100) (h6 : r100 < 36524)
    (h7 : r100 = 1461 * n4 + r4) (h8 : 0 ≤ r4) (h9 : r4 < 1461)
    (h10 : r4 = 365 * n1 + n) (h11 : 0 ≤ n) (h12 : n < 365) :
    1 ≤ (_ord2ymdCore n400 n100 n4 n1 n).2.1 ∧
    (_ord2ymdCore n400 n100 n4 n1 n).2.1 ≤ 12 ∧
    1 ≤ (_ord2ymdCore n400 n100 n4 n1 n).2.2 ∧
    (_ord2ymdCore n400 n100 n4 n1 n).2.2 ≤
      _days_in_month (isLeapB (_ord2ymdCore n400 n100 n4 n1 n).1)
        (_ord2ymdCore n400 n100 n4 n1 n).2.1 ∧
    _ymd2ord (_ord2ymdCore n400 n100 n4 n1 n).1 (_ord2ymdCore n400 n100 n4 n1 n).2.1
      (_ord2ymdCore n400 n100 n4 n1 n).2.2 = n0 + 1 := by
  by_cases hsp : n1 = 4 ∨ n100 = 4
  · -- last day of a 400-year or 100-year block: Dec 31 of a leap year
    rw [_ord2ymdCore, if_pos hsp]
    have hy : isLeapB (400 * n400 + 100 * n100 + 4 * n4 + n1) = true := by
      unfold isLeapB _is_leap
      simp only [decide_eq_true_eq]
      omega
    refine ⟨by norm_num, by norm_num, by norm_num, ?_, ?_⟩
    · dsimp only
      rw [hy]
      unfold _days_in_month
      norm_num
    · dsimp only
      unfold _ymd2ord
      rw [hy]
      have hdbm : _days_before_month true 12 = 335 := by decide
      rw [hdbm]
      have e400 : (400 * n400 + 100 * n100 + 4 * n4 + n1 - 1) / 400 = n400 := by omega
      have e100 : (400 * n400 + 100 * n100 + 4 * n4 + n1 - 1) / 100
          = 4 * n400 + n100 - (if n100 = 4 then 1 else 0) := by
        split_ifs <;> omega
      have e4 : (400 * n400 + 100 * n100 + 4 * n4 + n1 - 1) / 4
          = 100 * n400 + 25 * n100 + n4 - (if n1 = 4 then 0 else 1) := by
        split_ifs <;> omega
      rw [e400, e100, e4]
      split_ifs <;> omega
  · rw [_ord2ymdCore, if_neg hsp]
    have hbounds : 0 ≤ n100 ∧ n100 ≤ 3 ∧ 0 ≤ n4 ∧ n4 ≤ 24 ∧ 0 ≤ n1 ∧ n1 ≤ 3 := by omega
    obtain ⟨hc1, hc2, hc3, hc4, hc5, hc6⟩ := hbounds
    have hy := isLeapB_year n400 n100 n4 n1 hc1 hc2 hc3 hc4 hc5 hc6
    have hM := monthDbm_spec (decide (n1 = 3 ∧ (n4 ≠ 24 ∨ n100 = 3))) n h11
      (by split_ifs <;> omega)
    obtain ⟨hm1, hm2, hm3, hm4, hm5⟩ := hM
    refine ⟨hm1, hm2, by dsimp only; omega, ?_, ?_⟩
    · dsimp only
      rw [hy]
      omega
    · dsimp only
      unfold _ymd2ord
      rw [hy, hm3]
      have e400 : (400 * n400 + 100 * n100 + 4 * n4 + n1 + 1 - 1) / 400 = n400 := by
        omega
      have e100 : (400 * n400 + 100 * n100 + 4 * n4 + n1 + 1 - 1) / 100
          = 4 * n400 + n100 := by omega
      have e4 : (400 * n400 + 100 * n100 + 4 * n4 + n1 + 1 - 1) / 4
          = 100 * n400 + 25 * n100 + n4 := by omega
      rw [e400, e100, e4]
      omega

theorem ord2ymd_spec (nord : Int) :
    1 ≤ (_ord2ymd nord).2.1 ∧ (_ord2ymd nord).2.1 ≤ 12 ∧
    1 ≤ (_ord2ymd nord).2.2 ∧
    (_ord2ymd nord).2.2 ≤ _days_in_month (isLeapB (_ord2ymd nord).1) (_ord2ymd nord).2.1 ∧
    _ymd2ord (_ord2ymd nord).1 (_ord2ymd nord).2.1 (_ord2ymd nord).2.2 = nord := by
  have h := ord2ymdCore_spec (nord - 1) ((nord - 1) / 146097) ((nord - 1) % 146097)
    ((nord - 1) % 146097 / 36524) ((nord - 1) % 146097 % 36524)
    ((nord - 1) % 146097 % 36524 / 1461) ((nord - 1) % 146097 % 36524 % 1461)
    ((nord - 1) % 146097 % 36524 % 1461 / 365) ((nord - 1) % 146097 % 36524 % 1461 % 365)
    (by omega) (by omega) (by omega) (by omega) (by omega) (by omega)
    (by omega) (by omega) (by omega) (by omega) (by omega) (by omega)
  unfold _ord2ymd
  exact ⟨h.1, h.2.1, h.2.2.1, h.2.2.2.1, by omega⟩

/-! ## ISO-8601 timestamps

`mint_warrant.iso` renders a UTC datetime as `YYYY-MM-DDTHH:MM:SSZ` (it
truncates microseconds and rewrites `+00:00` to `Z`); `warrant_verify._parse_dt`
rewrites a trailing `Z` to `+00:00` and delegates to
`datetime.fromisoformat`.  Time is modelled at second precision as epoch
seconds; `fromisoformat` is modelled on the fixed-width subset
`YYYY-MM-DDTHH:MM:SS±HH:MM` that `iso` emits (other strings are parse
failures, which the verifier converts into a negative decision). -/

def digitChar (k : Int) : Char := Char.ofNat (48 + k.toNat)

def digitVal (c : Char) : Int := (c.toNat : Int) - 48

/-- A decimal digit character. -/
def isDigit (c : Char) : Prop := 48 ≤ c.toNat ∧ c.toNat ≤ 57

instance (c : Char) : Decidable (isDigit c) := by unfold isDigit; infer_instance

def pad2 (n : Int) : List Char := [digitChar (n / 10 % 10), digitChar (n % 10)]

def pad4 (n : Int) : List Char :=
  [digitChar (n / 1000 % 10), digitChar (n / 100 % 10),
   digitChar (n / 10 % 10), digitChar (n % 10)]

/-- Ordinal of the Unix epoch 1970-01-01 (`_ymd2ord 1970 1 1`). -/
def epochOrd : Int := 719163

/-- Model of `mint_warrant.iso`: render epoch seconds as
    `YYYY-MM-DDTHH:MM:SSZ`. -/
def iso (t : Int) : String :=
  let ymd := _ord2ymd (t / 86400 + epochOrd)
  let secs := t % 86400
  ⟨pad4 ymd.1 ++ '-' :: pad2 ymd.2.1 ++ '-' :: pad2 ymd.2.2 ++
   'T' :: pad2 (secs / 3600) ++ ':' :: pad2 (secs % 3600 / 60) ++
   ':' :: pad2 (secs % 60) ++ ['Z']⟩

/-- Model of `datetime.fromisoformat` (after the `Z` rewrite) on the
    fixed-width `YYYY-MM-DDTHH:MM:SS±HH:MM` format, converting to epoch
    seconds in UTC (`.astimezone(timezone.utc)` preserves the instant). -/
def fromIsoChars (cs : List Char) : Option Int :=
  match cs with
  | [y1, y2, y3, y4, '-', m1, m2, '-', d1, d2, 'T',
     h1, h2, ':', i1, i2, ':', s1, s2, sg, o1, o2, ':', o3, o4] =>
    if isDigit y1 ∧ isDigit y2 ∧ isDigit y3 ∧ isDigit y4 ∧ isDigit m1 ∧
       isDigit m2 ∧ isDigit d1 ∧ isDigit d2 ∧ isDigit h1 ∧ isDigit h2 ∧
       isDigit i1 ∧ isDigit i2 ∧ isDigit s1 ∧ isDigit s2 ∧ isDigit o1 ∧
       isDigit o2 ∧ isDigit o3 ∧ isDigit o4 then
      let y := 1000 * digitVal y1 + 100 * digitVal y2 + 10 * digitVal y3 + digitVal y4
      let mo := 10 * digitVal m1 + digitVal m2
      let d := 10 * digitVal d1 + digitVal d2
      let h := 10 * digitVal h1 + digitVal h2
      let mi := 10 * digitVal i1 + digitVal i2
      let sec := 10 * digitVal s1 + digitVal s2
      let oh := 10 * digitVal o1 + digitVal o2
      let om := 10 * digitVal o3 + digitVal o4
      if 1 ≤ y ∧ 1 ≤ mo ∧ mo ≤ 12 ∧ 1 ≤ d ∧ d ≤ _days_in_month (isLeapB y) mo ∧
         h ≤ 23 ∧ mi ≤ 59 ∧ sec ≤ 59 ∧ (sg = '+' ∨ sg = '-') ∧ oh ≤ 23 ∧ om ≤ 59 then
        some ((_ymd2ord y mo d - epochOrd) * 86400 + h * 3600 + mi * 60 + sec -
          (if sg = '+' then oh * 3600 + om * 60 else -(oh * 3600 + om * 60)))
      else none
    else none
  | _ => none

/-- The `Z` rewrite of `warrant_verify._parse_dt`: if the string ends with
    `'Z'`, replace that final character by `"+00:00"`. -/
def zRewrite : List Char → List Char
  | [] => []
  | ['Z'] => ['+', '0', '0', ':', '0', '0']
  | [c] => [c]
  | c :: c2 :: rest => c :: zRewrite (c2 :: rest)

/-- Model of `warrant_verify._parse_dt`: accept a trailing `"Z"` by
    rewriting it to `"+00:00"`, then parse. -/
def _parse_dt (s : String) : Option Int :=
  fromIsoChars (zRewrite s.data)

theorem digitVal_digitChar (k : Int) (h0 : 0 ≤ k) (h1 : k < 10) :
    digitVal (digitChar k) = k := by
  interval_cases k <;> decide

theorem isDigit_digitChar (k : Int) (h0 : 0 ≤ k) (h1 : k < 10) :
    isDigit (digitChar k) := by
  interval_cases k <;> decide

theorem digitVal_digitChar_mod (a : Int) : digitVal (digitChar (a % 10)) = a % 10 := by
  have h0 : 0 ≤ a % 10 := by omega
  have h1 : a % 10 < 10 := by omega
  interval_cases h : a % 10 <;> decide

theorem isDigit_digitChar_mod (a : Int) : isDigit (digitChar (a % 10)) := by
  have h0 : 0 ≤ a % 10 := by omega
  have h1 : a % 10 < 10 := by omega
  interval_cases h : a % 10 <;> decide

set_option maxHeartbeats 2000000 in
theorem parse_iso_roundtrip (t : Int) (h0 : 0 ≤ t) (h1 : t < 250000000000) :
    _parse_dt (iso t) = some t := by
  have hord := ord2ymd_spec (t / 86400 + epochOrd)
  rcases hy : _ord2ymd (t / 86400 + epochOrd) with ⟨y, mo, d⟩
  rw [hy] at hord
  dsimp only at hord
  obtain ⟨hm1, hm2, hd1, hd2, hord_eq⟩ := hord
  have hdim : _days_in_month (isLeapB y) mo ≤ 31 := by
    unfold _days_in_month
    split_ifs <;> omega
  have hyr : 1 ≤ y ∧ y ≤ 9999 := by
    have hdbm : 0 ≤ _days_before_month (isLeapB y) mo ∧
        _days_before_month (isLeapB y) mo ≤ 335 := by
      unfold _days_before_month
      split_ifs <;> omega
    unfold _ymd2ord at hord_eq
    unfold epochOrd at hord_eq
    omega
  unfold iso
  rw [hy]
  dsimp only
  unfold _parse_dt pad4 pad2
  simp only [List.cons_append, List.nil_append]
  simp only [zRewrite]
  simp only [fromIsoChars]
  rw [if_pos ?hdg]
  case hdg =>
    refine ⟨?_, ?_, ?_, ?_, ?_, ?_, ?_, ?_, ?_, ?_, ?_, ?_, ?_, ?_, ?_, ?_, ?_, ?_⟩ <;>
      first
      | exact isDigit_digitChar_mod _
      | decide
  simp only [digitVal_digitChar_mod]
  have hz : digitVal '0' = 0 := by decide
  simp only [hz]
  have hyv : 1000 * (y / 1000 % 10) + 100 * (y / 100 % 10) + 10 * (y / 10 % 10) + y % 10
      = y := by omega
  have hmov : 10 * (mo / 10 % 10) + mo % 10 = mo := by omega
  have hdv : 10 * (d / 10 % 10) + d % 10 = d := by omega
  have hhv : 10 * (t % 86400 / 3600 / 10 % 10) + t % 86400 / 3600 % 10
      = t % 86400 / 3600 := by omega
  have hmiv : 10 * (t % 86400 % 3600 / 60 / 10 % 10) + t % 86400 % 3600 / 60 % 10
      = t % 86400 % 3600 / 60 := by omega
  have hsv : 10 * (t % 86400 % 60 / 10 % 10) + t % 86400 % 60 % 10
      = t % 86400 % 60 := by omega
  rw [hyv, hmov, hdv, hhv, hmiv, hsv]
  rw [if_pos ?hrange]
  case hrange =>
    refine ⟨by omega, by omega, by omega, by omega, hd2, by omega, by omega, by omega,
      Or.inl trivial, by omega, by omega⟩
  rw [if_true]
  unfold epochOrd at hord_eq ⊢
  rw [hord_eq]
  norm_num
  omega

/-! ## JSON values (model of Python dict/list/str/int/bool/None) -/

inductive JValue where
  | null
  | bool (b : Bool)
  | num (n : Int)
  | str (s : String)
  | arr (xs : List JValue)
  | obj (kvs : List (String × JValue))

/-- Python truthiness on JSON values (`None`, `False`, `0`, `""`, `[]`, and
    an empty dict are falsy). -/
def jfalsy : JValue → Bool
  | .null => true
  | .bool b => !b
  | .num n => n = 0
  | .str s => s = ""
  | .arr xs => xs.isEmpty
  | .obj kvs => kvs.isEmpty

/-- First-match association-list lookup (Python dict lookup; dict keys are
    unique, so first-match agrees with the dict). -/
def jlookup : List (String × JValue) → String → Option JValue
  | [], _ => none
  | (k', v) :: rest, k => if k' = k then some v else jlookup rest k

/-- Python exceptions that `verify_warrant`'s `try` body can raise. -/
inductive PyErr where
  | typeErr      -- TypeError / AttributeError (wrong runtime type)
  | keyErr       -- KeyError (missing mandatory dict key)
  | valueErr     -- ValueError (unparseable timestamp, bad base64/key length)
  | badSignature -- nacl.exceptions.BadSignatureError
deriving DecidableEq

/-- Model of `d.get(k)` (requires a dict; returns `None` when absent). -/
def dictGet (v : JValue) (k : String) : Except PyErr (Option JValue) :=
  match v with
  | .obj kvs => .ok (jlookup kvs k)
  | _ => .error .typeErr

/-- Model of `d[k]` (KeyError when absent). -/
def dictIndex (v : JValue) (k : String) : Except PyErr JValue :=
  match v with
  | .obj kvs =>
    match jlookup kvs k with
    | some x => .ok x
    | none => .error .keyErr
  | _ => .error .typeErr

/-- Model of Python `x or y`. -/
def pyOr (v dflt : JValue) : JValue := if jfalsy v then dflt else v

/-- Model of `d.get(k) or y` applied to a lookup result (`None` is falsy). -/
def optOr (o : Option JValue) (dflt : JValue) : JValue :=
  match o with
  | some v => pyOr v dflt
  | none => dflt

/-! ## Canonical JSON encoding

Model of `json.dumps(w, separators=(",", ":"), sort_keys=True)` as used by
`canonical_payload` (mint side) and `_canonical_payload` (verify side):
keys sorted at every nesting level, minimal separators, strings escaped as
by CPython's encoder with `ensure_ascii=True`. -/

/-- Lowercase hex digit. -/
def toHexDigit (n : Nat) : Char := Char.ofNat (if n < 10 then 48 + n else 87 + n)

def hex4 (n : Nat) : List Char :=
  [toHexDigit (n / 4096 % 16), toHexDigit (n / 256 % 16),
   toHexDigit (n / 16 % 16), toHexDigit (n % 16)]

/-- Model of CPython `json` string escaping for one character
    (`ESCAPE_DCT` plus `ensure_ascii` `\uXXXX` escapes, with surrogate
    pairs above the BMP). -/
def escapeChar (c : Char) : List Char :=
  if c = '"' then ['\\', '"']
  else if c = '\\' then ['\\', '\\']
  else if c = '\x08' then ['\\', 'b']
  else if c = '\x0c' then ['\\', 'f']
  else if c = '\n' then ['\\', 'n']
  else if c = '\r' then ['\\', 'r']
  else if c = '\t' then ['\\', 't']
  else if c.toNat < 0x20 then '\\' :: 'u' :: hex4 c.toNat
  else if c.toNat < 0x7f then [c]
  else if c.toNat < 0x10000 then '\\' :: 'u' :: hex4 c.toNat
  else
    '\\' :: 'u' :: hex4 (0xD800 + (c.toNat - 0x10000) / 1024) ++
    '\\' :: 'u' :: hex4 (0xDC00 + (c.toNat - 0x10000) % 1024)

def escapeList : List Char → List Char
  | [] => []
  | c :: cs => escapeChar c ++ escapeList cs

/-- A JSON string literal: quote, escaped body, quote. -/
def jstr (s : String) : List Char := '"' :: escapeList s.data ++ ['"']

/-- Decimal rendering of an integer (Python `repr` of `int`). -/
def intRepr (n : Int) : List Char :=
  if n < 0 then '-' :: (Nat.toDigits 10 (-n).toNat)
  else Nat.toDigits 10 n.toNat

/-- Code-point lexicographic order on character lists: Python's `str`
    comparison, which `sort_keys=True` uses. -/
def charListLe : List Char → List Char → Bool
  | [], _ => true
  | _ :: _, [] => false
  | c :: a, d :: b =>
    if c.toNat < d.toNat then true
    else if d.toNat < c.toNat then false
    else charListLe a b

/-- Insert into an association list sorted by key. -/
def insertByKey {α : Type} (p : String × α) :
    List (String × α) → List (String × α)
  | [] => [p]
  | q :: rest =>
    if charListLe p.1.data q.1.data then p :: q :: rest else q :: insertByKey p rest

/-- Insertion sort by key. -/
def sortByKey {α : Type} : List (String × α) → List (String × α)
  | [] => []
  | p :: rest => insertByKey p (sortByKey rest)

/-- Serializer with minimal separators and keys sorted at every nesting
    level, recursion bounded by a fuel argument (`dumpsSort` below supplies
    sufficient fuel; the fuel keeps the recursion structural). -/
def dumpsF : Nat → JValue → List Char
  | 0, _ => []
  | fuel + 1, v =>
    match v with
    | .null => "null".data
    | .bool true => "true".data
    | .bool false => "false".data
    | .num n => intRepr n
    | .str s => jstr s
    | .arr xs => '[' :: List.intercalate [','] (xs.map (fun x => dumpsF fuel x)) ++ [']']
    | .obj kvs => '\x7b' :: List.intercalate [',']
        ((sortByKey (kvs.map (fun p => (p.1, dumpsF fuel p.2)))).map
          (fun q => jstr q.1 ++ ':' :: q.2)) ++ ['\x7d']

/-- CPython's default recursion limit: `json.dumps` raises
    `RecursionError` on structures nested deeper (the verifier's `except`
    turns that into a negative decision); warrants are 3 levels deep. -/
def RECLIMIT : Nat := 1000

/-- Model of `json.dumps(w, separators=(",", ":"), sort_keys=True)`. -/
def dumpsSort (v : JValue) : List Char := dumpsF RECLIMIT v

/-- Model of `dict(w)` + `w.pop("signature", None)`: drop the `signature`
    key (dict keys are unique, so dropping every occurrence agrees). -/
def popSignature (w : JValue) : JValue :=
  match w with
  | .obj kvs => .obj (kvs.filter (fun p => p.1 ≠ "signature"))
  | v => v

/-- Model of `_canonical_payload` / `canonical_payload`: drop `signature`,
    then `json.dumps(w, separators=(",", ":"), sort_keys=True)` (UTF-8
    bytes modelled as the character list). -/
def _canonical_payload (w : JValue) : List Char := dumpsSort (popSignature w)

/-! ## Ideal Ed25519 and base64 transport

The repository signs with `nacl.signing.SigningKey` and verifies with
`VerifyKey`; keys and signatures travel base64-encoded.  The scheme is
modelled ideally: a key pair is an abstract `Nat` handle (public =
private handle), a signature is the pair (key handle, signed message), and
verification succeeds exactly for the matching pair.  Base64 transport is
modelled by an explicit invertible textual codec; strings outside the
codec's image decode to nothing, which the verifier treats as a raised
exception (as CPython does for wrong-length keys or corrupt signatures). -/

def digitCharN (d : Nat) : Char := Char.ofNat (48 + d)

/-- Big-endian decimal digits of a natural number (empty for 0; the codec
    round-trips either way), fuel-bounded to keep the recursion
    structural. -/
def natStrAux : Nat → Nat → List Char
  | 0, _ => []
  | fuel + 1, n => if n = 0 then [] else natStrAux fuel (n / 10) ++ [digitCharN (n % 10)]

/-- Decimal digits of a natural number. -/
def natStr (n : Nat) : List Char := natStrAux n n

/-- Value of a big-endian decimal digit string. -/
def valOfDigits (cs : List Char) : Nat :=
  cs.foldl (fun a c => 10 * a + (c.toNat - 48)) 0

def isDigitB (c : Char) : Bool := decide (isDigit c)

/-- Ed25519 signature bytes (ideal model). -/
structure Sig where
  key : Nat
  msg : List Char
deriving DecidableEq

/-- Model of `SigningKey(priv).sign(payload).signature`. -/
def ed25519_sign (sk : Nat) (msg : List Char) : Sig := ⟨sk, msg⟩

/-- Public key derivation, modelled as the identity on abstract handles
    (the model only needs it injective, with verification succeeding
    exactly for the matching key pair). -/
def pubOfPriv (k : Nat) : Nat := k

/-- Model of `VerifyKey(pub).verify(payload, sig)`: raises
    `BadSignatureError` unless the signature is that key's signature of
    that exact payload. -/
def nacl_verify (pub : Nat) (payload : List Char) (s : Sig) : Except PyErr Unit :=
  if s.key = pub ∧ s.msg = payload then .ok () else .error .badSignature

/-- Model of `base64.b64encode` of signature bytes. -/
def sigEncode (s : Sig) : List Char :=
  's' :: 'i' :: 'g' :: ':' :: natStr s.key ++ ':' :: s.msg

/-- Model of `base64.b64decode` of a signature plus the 64-byte shape
    check nacl performs; strings outside the codec image are decode
    failures. -/
def sigDecode (cs : List Char) : Option Sig :=
  match cs with
  | 's' :: 'i' :: 'g' :: ':' :: rest =>
    match rest.dropWhile isDigitB with
    | ':' :: m => some ⟨valOfDigits (rest.takeWhile isDigitB), m⟩
    | _ => none
  | _ => none

/-- Model of `base64.b64encode` of a public key. -/
def keyEncode (k : Nat) : String := ⟨'p' :: 'k' :: ':' :: natStr k⟩

/-- Model of `base64.b64decode` plus the `VerifyKey` 32-byte shape check. -/
def keyDecode (cs : List Char) : Option Nat :=
  match cs with
  | 'p' :: 'k' :: ':' :: rest =>
    if rest.all isDigitB then some (valOfDigits rest) else none
  | _ => none

/-! ## Python string helpers used by the pipeline -/

def isSpaceB (c : Char) : Bool :=
  decide (c = ' ' ∨ c = '\t' ∨ c = '\n' ∨ c = '\r' ∨ c = '\x0b' ∨ c = '\x0c')

/-- Model of `str.strip()`. -/
def pstrip (s : String) : String :=
  ⟨((s.data.dropWhile isSpaceB).reverse.dropWhile isSpaceB).reverse⟩

/-- Model of `str.lower()` (the repository only lowercases ASCII repo
    names, commit hashes and hex digests). -/
def pyLower (s : String) : String := ⟨s.data.map Char.toLower⟩

/-- Model of `hashlib.sha256(b).hexdigest()`: an opaque deterministic
    function of the payload bytes.  No claim depends on the digest's
    value, only on it being a function of the payload (the spec notes the
    hash "carries no authorization weight"). -/
def _sha256_hex (b : List Char) : String := ⟨b⟩

/-! ## The Verifier (`src/warrant_verify.py`) -/

/-- Decision reasons; the source returns the reason as a formatted string,
    listed here next to each constructor. -/
inductive Reason where
  | OK                    -- "OK"
  | UNSUPPORTED_ALG       -- f"Unsupported signature alg: {alg}"
  | EXPIRED               -- "Warrant expired."
  | ISSUED_IN_FUTURE      -- "Warrant issued in the future (clock skew)."
  | TTL_TOO_LONG          -- f"TTL too long: {ttl}s > {max_ttl_seconds}s"
  | POLICY_HASH_MISMATCH  -- "Policy bundle hash mismatch (pinning failed)."
  | REPO_MISMATCH         -- "Repo claim mismatch."
  | COMMIT_MISMATCH       -- "Commit claim mismatch."
  | BAD_SIGNATURE         -- f"Verification error: {BadSignatureError}"
  | VERIFICATION_ERROR    -- f"Verification error: {e}" for other exceptions
deriving DecidableEq

structure WarrantDecision where
  ok : Bool
  reason : Reason
  payload_sha256 : Option String
deriving DecidableEq

/-- The reason the `except Exception` handler reports for each raised
    exception. -/
def errReason : PyErr → Reason
  | .badSignature => .BAD_SIGNATURE
  | _ => .VERIFICATION_ERROR

/-- Model of `_parse_dt(warrant[...])` applied to a JSON value: a
    non-string raises, an unparseable string raises. -/
def parse_dt_j (v : JValue) : Except PyErr Int :=
  match v with
  | .str s =>
    match _parse_dt s with
    | some tm => .ok tm
    | none => .error .valueErr
  | _ => .error .typeErr

/-- Model of `(...).lower()`: AttributeError on a non-string. -/
def strLower (v : JValue) : Except PyErr String :=
  match v with
  | .str s => .ok (pyLower s)
  | _ => .error .typeErr

/-- Model of passing a value to `base64.b64decode`: TypeError on a
    non-string. -/
def asStr (v : JValue) : Except PyErr String :=
  match v with
  | .str s => .ok s
  | _ => .error .typeErr

/-- Model of `base64.b64decode(sig_b64)` followed by nacl's signature
    shape check. -/
def b64decode_sig (s : String) : Except PyErr Sig :=
  match sigDecode s.data with
  | some x => .ok x
  | none => .error .valueErr

/-- Model of `VerifyKey(base64.b64decode(issuer_pubkey_b64.strip()))`. -/
def b64decode_key (s : String) : Except PyErr Nat :=
  match keyDecode (pstrip s).data with
  | some k => .ok k
  | none => .error .valueErr

/-- The `try` body of `verify_warrant`, line by line; `.error` is a raised
    exception reaching the `except Exception` handler. -/
def verifyWarrantBody (warrant : JValue) (issuer_pubkey_b64 : String)
    (expected_bundle_sha256 : String) (observed_repo : String)
    (observed_commit_sha : String) (max_ttl_seconds : Int) (now : Int) :
    Except PyErr WarrantDecision :=
  -- sig = warrant.get("signature") or {}
  match dictGet warrant "signature" with
  | .error e => .error e
  | .ok sigRaw =>
  let sig := optOr sigRaw (.obj [])
  -- alg = sig.get("alg"); if alg != "ed25519": ...
  match dictGet sig "alg" with
  | .error e => .error e
  | .ok algO =>
  match algO with
  | some (.str "ed25519") =>
    -- issued_at = _parse_dt(warrant["issued_at"]); same for expires_at
    (match dictIndex warrant "issued_at" with
    | .error e => .error e
    | .ok issuedRaw =>
    match parse_dt_j issuedRaw with
    | .error e => .error e
    | .ok issued_at =>
    match dictIndex warrant "expires_at" with
    | .error e => .error e
    | .ok expiresRaw =>
    match parse_dt_j expiresRaw with
    | .error e => .error e
    | .ok expires_at =>
    -- if expires_at <= now: expired
    if expires_at ≤ now then .ok ⟨false, .EXPIRED, none⟩
    -- if issued_at > now: issued in the future
    else if issued_at > now then .ok ⟨false, .ISSUED_IN_FUTURE, none⟩
    -- ttl = (expires_at - issued_at).total_seconds(); if ttl > max_ttl_seconds
    else if expires_at - issued_at > max_ttl_seconds then
      .ok ⟨false, .TTL_TOO_LONG, none⟩
    else
    -- policy = warrant.get("policy") or {}
    match dictGet warrant "policy" with
    | .error e => .error e
    | .ok policyRaw =>
    let policy := optOr policyRaw (.obj [])
    -- bundle_sha = (policy.get("bundle_sha256") or "").lower()
    match dictGet policy "bundle_sha256" with
    | .error e => .error e
    | .ok bundleRaw =>
    match strLower (optOr bundleRaw (.str "")) with
    | .error e => .error e
    | .ok bundle_sha =>
    -- if not bundle_sha or bundle_sha != expected_bundle_sha256.lower()
    if bundle_sha = "" ∨ bundle_sha ≠ pyLower expected_bundle_sha256 then
      .ok ⟨false, .POLICY_HASH_MISMATCH, none⟩
    else
    -- claims = warrant.get("claims") or {}
    match dictGet warrant "claims" with
    | .error e => .error e
    | .ok claimsRaw =>
    let claims := optOr claimsRaw (.obj [])
    -- w_repo = (claims.get("repo") or "").lower()
    match dictGet claims "repo" with
    | .error e => .error e
    | .ok repoRaw =>
    match strLower (optOr repoRaw (.str "")) with
    | .error e => .error e
    | .ok w_repo =>
    -- w_sha = (claims.get("commit_sha") or "").lower()
    match dictGet claims "commit_sha" with
    | .error e => .error e
    | .ok shaRaw =>
    match strLower (optOr shaRaw (.str "")) with
    | .error e => .error e
    | .ok w_sha =>
    if w_repo ≠ pyLower observed_repo then .ok ⟨false, .REPO_MISMATCH, none⟩
    else if w_sha ≠ pyLower observed_commit_sha then
      .ok ⟨false, .COMMIT_MISMATCH, none⟩
    else
    -- payload = _canonical_payload(warrant); payload_sha = _sha256_hex(payload)
    let payload := _canonical_payload warrant
    let payload_sha := _sha256_hex payload
    -- sig_b64 = sig.get("sig_b64") or ""; sig_bytes = base64.b64decode(sig_b64)
    match dictGet sig "sig_b64" with
    | .error e => .error e
    | .ok sb64Raw =>
    match asStr (optOr sb64Raw (.str "")) with
    | .error e => .error e
    | .ok sig_b64 =>
    match b64decode_sig sig_b64 with
    | .error e => .error e
    | .ok sig_bytes =>
    -- pub = base64.b64decode(issuer_pubkey_b64.strip()); vk = VerifyKey(pub)
    match b64decode_key issuer_pubkey_b64 with
    | .error e => .error e
    | .ok pub =>
    -- vk.verify(payload, sig_bytes)
    match nacl_verify pub payload sig_bytes with
    | .error e => .error e
    | .ok _ => .ok ⟨true, .OK, some payload_sha⟩)
  | _ => .ok ⟨false, .UNSUPPORTED_ALG, none⟩

/-- Model of `verify_warrant`: the `try/except` wrapper converts every
    raised exception into a negative decision.  `now` is the single
    `_utc_now()` clock reading; the source's default `max_ttl_seconds`
    is 900. -/
def verify_warrant (warrant : JValue) (issuer_pubkey_b64 : String)
    (expected_bundle_sha256 : String) (observed_repo : String)
    (observed_commit_sha : String) (max_ttl_seconds : Int) (now : Int) :
    WarrantDecision :=
  match verifyWarrantBody warrant issuer_pubkey_b64 expected_bundle_sha256
      observed_repo observed_commit_sha max_ttl_seconds now with
  | .ok d => d
  | .error e => ⟨false, errReason e, none⟩

/-! ## The Issuer (`scripts/mint_warrant.py`) -/

/-- The warrant's non-signature content as a flat record (the fields the
    Issuer populates; §6 of the spec fixes this shape). -/
structure WarrantContent where
  warrant_id : String
  issued_at : String
  expires_at : String
  issuer : String
  subject_type : String
  subject_id : String
  subject_notes : String
  scope_action : String
  scope_target : String
  scope_module : String
  permissions_intent : List String
  bundle_sha256 : String
  host_platform : String
  repo : String
  ref : String
  commit_sha : String
  run_id : String
  workflow : String
  actor : String
deriving DecidableEq

/-- The JSON object entries of a warrant's content, in the Issuer's
    insertion order (the dict literal of `mint_warrant.main`). -/
def contentFields (c : WarrantContent) : List (String × JValue) :=
  [("warrant_id", .str c.warrant_id),
   ("issued_at", .str c.issued_at),
   ("expires_at", .str c.expires_at),
   ("issuer", .str c.issuer),
   ("subject", .obj [("type", .str c.subject_type), ("id", .str c.subject_id),
     ("notes", .str c.subject_notes)]),
   ("scope", .obj [("action", .str c.scope_action), ("target", .str c.scope_target),
     ("module", .str c.scope_module),
     ("permissions_intent", .arr (c.permissions_intent.map JValue.str))]),
   ("policy", .obj [("bundle_sha256", .str c.bundle_sha256)]),
   ("claims", .obj [("host_platform", .str c.host_platform), ("repo", .str c.repo),
     ("ref", .str c.ref), ("commit_sha", .str c.commit_sha), ("run_id", .str c.run_id),
     ("workflow", .str c.workflow), ("actor", .str c.actor)])]

def contentJson (c : WarrantContent) : JValue := .obj (contentFields c)

/-- The `signature` object the Issuer attaches. -/
def signatureObj (public_key_id : String) (sg : Sig) : JValue :=
  .obj [("alg", .str "ed25519"), ("public_key_id", .str public_key_id),
    ("sig_b64", .str ⟨sigEncode sg⟩)]

/-- A content record with a signature object attached (Python mutates the
    dict, appending the `signature` key last). -/
def signedJson (c : WarrantContent) (public_key_id : String) (sg : Sig) : JValue :=
  .obj (contentFields c ++ [("signature", signatureObj public_key_id sg)])

/-- Inputs of `mint_warrant.main`, after the environment-variable reads and
    `.strip()` calls (environment collection is an external collaborator;
    `priv` is the decoded Ed25519 private key handle, `nowMint` the
    `utc_now()` reading at second precision). -/
structure MintInputs where
  issuer : String
  public_key_id : String
  priv : Nat
  agent : String
  moduleName : String
  bundle_sha256 : String
  host_platform : String
  repo : String
  commit_sha : String
  ref : String
  run_id : String
  workflow : String
  actor : String
  warrant_id_env : Option String
  ttl_seconds : Int
  nowMint : Int

/-- The content record `mint_warrant.main` assembles. -/
def mintRecord (a : MintInputs) : WarrantContent :=
  { warrant_id := match a.warrant_id_env with
      | some w => w
      | none => ⟨intRepr a.nowMint⟩ ++ "-" ++
          (if a.run_id = "" then "local" else a.run_id) ++ "-" ++ a.agent
    issued_at := iso a.nowMint
    expires_at := iso (a.nowMint + a.ttl_seconds)
    issuer := a.issuer
    subject_type := if a.host_platform = "github" then "workflow_run" else "execution"
    subject_id := a.host_platform ++ ":" ++ a.repo ++ ":" ++ a.workflow ++ ":" ++ a.run_id
    subject_notes := "Ephemeral execution warrant"
    scope_action := "run_agent"
    scope_target := a.agent
    scope_module := a.moduleName
    permissions_intent := ["out:write"]
    bundle_sha256 := a.bundle_sha256
    host_platform := a.host_platform
    repo := a.repo
    ref := a.ref
    commit_sha := a.commit_sha
    run_id := a.run_id
    workflow := a.workflow
    actor := a.actor }

/-- The signature the Issuer produces: the private key's signature over the
    canonical payload of the unsigned warrant. -/
def mintSig (a : MintInputs) : Sig :=
  ed25519_sign a.priv (_canonical_payload (contentJson (mintRecord a)))

/-- The complete signed warrant the Issuer emits. -/
def mintSigned (a : MintInputs) : JValue :=
  signedJson (mintRecord a) a.public_key_id (mintSig a)

/-- Model of `mint_warrant.main`: the `SystemExit` validations, then the
    signed warrant (printing is I/O glue). -/
def mint_warrant_main (a : MintInputs) : Except String JValue :=
  if a.agent = "" then
    .error "AGENT_NAME is required to mint a warrant."
  else if a.repo = "" ∨ a.commit_sha = "" then
    .error "Missing repo/commit_sha (need GITHUB_REPOSITORY and GITHUB_SHA)."
  else
    .ok (mintSigned a)

/-! ## Transport-codec round trips -/

/-! Codec round trips -/

theorem digitCharN_toNat (d : Nat) (h : d < 10) : (digitCharN d).toNat = 48 + d := by
  interval_cases d <;> decide

theorem digitCharN_isDigit (d : Nat) (h : d < 10) : isDigitB (digitCharN d) = true := by
  interval_cases d <;> decide

theorem natStrAux_all_digits (fuel n : Nat) :
    ∀ c ∈ natStrAux fuel n, isDigitB c = true := by
  induction fuel generalizing n with
  | zero => simp [natStrAux]
  | succ fuel ih =>
    intro c hc
    rw [natStrAux] at hc
    by_cases h0 : n = 0
    · simp [h0] at hc
    · rw [if_neg h0] at hc
      rcases List.mem_append.mp hc with h | h
      · exact ih (n / 10) c h
      · have : c = digitCharN (n % 10) := by simpa using h
        subst this
        exact digitCharN_isDigit _ (by omega)

theorem valOfDigits_append_digit (a : List Char) (c : Char) :
    valOfDigits (a ++ [c]) = 10 * valOfDigits a + (c.toNat - 48) := by
  unfold valOfDigits
  rw [List.foldl_append]
  rfl

theorem valOfDigits_natStrAux (fuel n : Nat) (h : n ≤ fuel) :
    valOfDigits (natStrAux fuel n) = n := by
  induction fuel generalizing n with
  | zero =>
    have : n = 0 := by omega
    subst this
    rfl
  | succ fuel ih =>
    rw [natStrAux]
    by_cases h0 : n = 0
    · subst h0
      rfl
    · rw [if_neg h0, valOfDigits_append_digit, ih (n / 10) (by omega),
        digitCharN_toNat (n % 10) (by omega)]
      omega

theorem valOfDigits_natStr (n : Nat) : valOfDigits (natStr n) = n :=
  valOfDigits_natStrAux n n le_rfl

theorem natStr_all_digits (n : Nat) : ∀ c ∈ natStr n, isDigitB c = true :=
  natStrAux_all_digits n n

theorem takeWhile_all_append {p : Char → Bool} (a : List Char) (b : Char)
    (t : List Char) (ha : ∀ c ∈ a, p c = true) (hb : p b = false) :
    (a ++ b :: t).takeWhile p = a ∧ (a ++ b :: t).dropWhile p = b :: t := by
  induction a with
  | nil => simp [List.takeWhile, List.dropWhile, hb]
  | cons c a ih =>
    have hc : p c = true := ha c (by simp)
    have := ih (fun x hx => ha x (by simp [hx]))
    simp [List.takeWhile, List.dropWhile, hc, this]

theorem sigDecode_sigEncode (s : Sig) : sigDecode (sigEncode s) = some s := by
  have h := takeWhile_all_append (natStr s.key) ':' s.msg (natStr_all_digits s.key)
    (by decide)
  have hstep : sigDecode (sigEncode s)
      = (match List.dropWhile isDigitB (natStr s.key ++ ':' :: s.msg) with
        | ':' :: m =>
          some ⟨valOfDigits (List.takeWhile isDigitB (natStr s.key ++ ':' :: s.msg)), m⟩
        | _ => none) := rfl
  rw [hstep, h.1, h.2]
  simp [valOfDigits_natStr]

theorem b64decode_sig_encode (s : Sig) :
    b64decode_sig ⟨sigEncode s⟩ = .ok s := by
  unfold b64decode_sig
  rw [show (⟨sigEncode s⟩ : String).data = sigEncode s from rfl, sigDecode_sigEncode]

theorem digit_not_space (c : Char) (h : isDigitB c = true) : isSpaceB c = false := by
  unfold isDigitB isDigit at h
  unfold isSpaceB
  simp only [decide_eq_true_eq] at h
  simp only [decide_eq_false_iff_not]
  intro hor
  rcases hor with h1 | h1 | h1 | h1 | h1 | h1 <;> subst h1 <;> exact absurd h (by decide)

theorem dropWhile_eq_self_of_all {p : Char → Bool} (l : List Char)
    (h : ∀ c ∈ l, p c = false) : l.dropWhile p = l := by
  cases l with
  | nil => rfl
  | cons c rest => simp [List.dropWhile, h c (by simp)]

theorem pstrip_keyEncode (k : Nat) : pstrip (keyEncode k) = keyEncode k := by
  unfold pstrip keyEncode
  have hnos : ∀ c ∈ ('p' :: 'k' :: ':' :: natStr k), isSpaceB c = false := by
    intro c hc
    simp only [List.mem_cons] at hc
    rcases hc with rfl | rfl | rfl | hc
    · decide
    · decide
    · decide
    · exact digit_not_space c (natStr_all_digits k c hc)
  rw [show (⟨'p' :: 'k' :: ':' :: natStr k⟩ : String).data
      = 'p' :: 'k' :: ':' :: natStr k from rfl]
  rw [dropWhile_eq_self_of_all _ hnos,
    dropWhile_eq_self_of_all _ (by intro c hc; exact hnos c (List.mem_reverse.mp hc)),
    List.reverse_reverse]

theorem keyDecode_keyEncode (k : Nat) : keyDecode (keyEncode k).data = some k := by
  unfold keyEncode keyDecode
  rw [show (⟨'p' :: 'k' :: ':' :: natStr k⟩ : String).data
      = 'p' :: 'k' :: ':' :: natStr k from rfl]
  simp only [List.all_eq_true]
  rw [if_pos (natStr_all_digits k), valOfDigits_natStr]

theorem b64decode_key_encode (k : Nat) : b64decode_key (keyEncode k) = .ok k := by
  unfold b64decode_key
  rw [pstrip_keyEncode, keyDecode_keyEncode]

/-! ## Injectivity of the canonical string encoding -/

theorem char_valid_range (c : Char) :
    c.toNat < 0xd800 ∨ (0xe000 ≤ c.toNat ∧ c.toNat < 0x110000) := by
  have h := c.valid
  unfold UInt32.isValidChar Nat.isValidChar at h
  unfold Char.toNat
  rcases h with h | ⟨h1, h2⟩
  · left
    exact_mod_cast h
  · right
    constructor <;> omega

/-- Hex digit value (lowercase), inverse of `toHexDigit`. -/
def hexVal (c : Char) : Option Nat :=
  if 48 ≤ c.toNat ∧ c.toNat ≤ 57 then some (c.toNat - 48)
  else if 97 ≤ c.toNat ∧ c.toNat ≤ 102 then some (c.toNat - 87)
  else none

/-- Decode the low surrogate of a `\uXXXX\uXXXX` pair (`v` is the decoded
    high surrogate). -/
def decEpair (v : Nat) : List Char → Option (Char × List Char)
  | '\\' :: 'u' :: g1 :: g2 :: g3 :: g4 :: t2 =>
    (match hexVal g1, hexVal g2, hexVal g3, hexVal g4 with
    | some a, some b, some c, some d =>
      if 0xdc00 ≤ 4096 * a + 256 * b + 16 * c + d ∧
          4096 * a + 256 * b + 16 * c + d ≤ 0xdfff then
        some (Char.ofNat (0x10000 + 1024 * (v - 0xd800)
          + (4096 * a + 256 * b + 16 * c + d - 0xdc00)), t2)
      else none
    | _, _, _, _ => none)
  | _ => none

/-- Decode a `\uXXXX` escape body. -/
def decEu (h1 h2 h3 h4 : Char) (t : List Char) : Option (Char × List Char) :=
  match hexVal h1, hexVal h2, hexVal h3, hexVal h4 with
  | some a, some b, some c, some d =>
    if 0xd800 ≤ 4096 * a + 256 * b + 16 * c + d ∧
        4096 * a + 256 * b + 16 * c + d ≤ 0xdbff then
      decEpair (4096 * a + 256 * b + 16 * c + d) t
    else if 0xdc00 ≤ 4096 * a + 256 * b + 16 * c + d ∧
        4096 * a + 256 * b + 16 * c + d ≤ 0xdfff then none
    else some (Char.ofNat (4096 * a + 256 * b + 16 * c + d), t)
  | _, _, _, _ => none

/-- Decoder for one character of a JSON-escaped string: inverse of
    `escapeChar`, used to prove the escaping injective. -/
def decE : List Char → Option (Char × List Char)
  | [] => none
  | '\\' :: 'u' :: h1 :: h2 :: h3 :: h4 :: t => decEu h1 h2 h3 h4 t
  | '\\' :: '"' :: t => some ('"', t)
  | '\\' :: '\\' :: t => some ('\\', t)
  | '\\' :: 'b' :: t => some ('\x08', t)
  | '\\' :: 'f' :: t => some ('\x0c', t)
  | '\\' :: 'n' :: t => some ('\n', t)
  | '\\' :: 'r' :: t => some ('\r', t)
  | '\\' :: 't' :: t => some ('\t', t)
  | '\\' :: _ => none
  | '"' :: _ => none
  | c :: t => some (c, t)

theorem hexVal_toHexDigit (d : Nat) (h : d < 16) : hexVal (toHexDigit d) = some d := by
  interval_cases d <;> decide

theorem decEu_hex4 (n : Nat) (t : List Char) (h : n < 0x10000) :
    decEu (toHexDigit (n / 4096 % 16)) (toHexDigit (n / 256 % 16))
      (toHexDigit (n / 16 % 16)) (toHexDigit (n % 16)) t
    = (if 0xd800 ≤ n ∧ n ≤ 0xdbff then decEpair n t
       else if 0xdc00 ≤ n ∧ n ≤ 0xdfff then none
       else some (Char.ofNat n, t)) := by
  unfold decEu
  rw [hexVal_toHexDigit _ (by omega), hexVal_toHexDigit _ (by omega),
    hexVal_toHexDigit _ (by omega), hexVal_toHexDigit _ (by omega)]
  have hn : 4096 * (n / 4096 % 16) + 256 * (n / 256 % 16) + 16 * (n / 16 % 16) + n % 16
      = n := by omega
  simp only [hn]

theorem decEpair_hex4 (v m : Nat) (t : List Char) (h : m < 0x10000) :
    decEpair v ('\\' :: 'u' :: toHexDigit (m / 4096 % 16) :: toHexDigit (m / 256 % 16)
      :: toHexDigit (m / 16 % 16) :: toHexDigit (m % 16) :: t)
    = (if 0xdc00 ≤ m ∧ m ≤ 0xdfff then
        some (Char.ofNat (0x10000 + 1024 * (v - 0xd800) + (m - 0xdc00)), t)
      else none) := by
  simp only [decEpair]
  rw [hexVal_toHexDigit _ (by omega), hexVal_toHexDigit _ (by omega),
    hexVal_toHexDigit _ (by omega), hexVal_toHexDigit _ (by omega)]
  have hm : 4096 * (m / 4096 % 16) + 256 * (m / 256 % 16) + 16 * (m / 16 % 16) + m % 16
      = m := by omega
  simp only [hm]

set_option maxHeartbeats 1000000 in
theorem decE_escapeChar (c : Char) (t : List Char) :
    decE (escapeChar c ++ t) = some (c, t) := by
  by_cases e1 : c = '"'
  · subst e1; rfl
  by_cases e2 : c = '\\'
  · subst e2; rfl
  by_cases e3 : c = '\x08'
  · subst e3; rfl
  by_cases e4 : c = '\x0c'
  · subst e4; rfl
  by_cases e5 : c = '\n'
  · subst e5; rfl
  by_cases e6 : c = '\r'
  · subst e6; rfl
  by_cases e7 : c = '\t'
  · subst e7; rfl
  by_cases e8 : c.toNat < 0x20
  · -- control characters: \u00XX
    have hesc : escapeChar c = '\\' :: 'u' :: hex4 c.toNat := by
      unfold escapeChar
      rw [if_neg e1, if_neg e2, if_neg e3, if_neg e4, if_neg e5, if_neg e6, if_neg e7,
        if_pos e8]
    rw [hesc]
    unfold hex4
    simp only [List.cons_append, List.nil_append, decE]
    rw [decEu_hex4 _ _ (by omega), if_neg (by omega), if_neg (by omega),
      Char.ofNat_toNat]
  by_cases e9 : c.toNat < 0x7f
  · -- printable ASCII other than quote and backslash: kept verbatim
    have hesc : escapeChar c = [c] := by
      unfold escapeChar
      rw [if_neg e1, if_neg e2, if_neg e3, if_neg e4, if_neg e5, if_neg e6, if_neg e7,
        if_neg e8, if_pos e9]
    rw [hesc]
    simp only [List.cons_append, List.nil_append]
    unfold decE
    split <;> simp_all
  by_cases e10 : c.toNat < 0x10000
  · -- BMP above ASCII: \uXXXX (validity excludes surrogates)
    have hv := char_valid_range c
    have hesc : escapeChar c = '\\' :: 'u' :: hex4 c.toNat := by
      unfold escapeChar
      rw [if_neg e1, if_neg e2, if_neg e3, if_neg e4, if_neg e5, if_neg e6, if_neg e7,
        if_neg e8, if_neg e9, if_pos e10]
    rw [hesc]
    unfold hex4
    simp only [List.cons_append, List.nil_append, decE]
    rw [decEu_hex4 _ _ (by omega), if_neg (by omega), if_neg (by omega),
      Char.ofNat_toNat]
  · -- astral plane: surrogate pair
    have hv := char_valid_range c
    have hesc : escapeChar c = '\\' :: 'u' :: hex4 (0xd800 + (c.toNat - 0x10000) / 1024)
        ++ '\\' :: 'u' :: hex4 (0xdc00 + (c.toNat - 0x10000) % 1024) := by
      unfold escapeChar
      rw [if_neg e1, if_neg e2, if_neg e3, if_neg e4, if_neg e5, if_neg e6, if_neg e7,
        if_neg e8, if_neg e9, if_neg e10]
    rw [hesc]
    unfold hex4
    simp only [List.cons_append, List.nil_append, decE]
    rw [decEu_hex4 _ _ (by omega), if_pos (by omega),
      decEpair_hex4 _ _ _ (by omega), if_pos (by omega)]
    rw [show 0x10000 + 1024 * (0xd800 + (c.toNat - 0x10000) / 1024 - 0xd800)
        + (0xdc00 + (c.toNat - 0x10000) % 1024 - 0xdc00) = c.toNat from by omega]
    rw [Char.ofNat_toNat]

theorem escape_block_inj (l : List Char) :
    ∀ (l' r1 r2 : List Char),
    escapeList l ++ '"' :: r1 = escapeList l' ++ '"' :: r2 → l = l' ∧ r1 = r2 := by
  induction l with
  | nil =>
    intro l' r1 r2 h
    cases l' with
    | nil => simpa using h
    | cons d l'' =>
      exfalso
      have h2 := congrArg decE h
      rw [show escapeList [] ++ '"' :: r1 = '"' :: r1 from rfl] at h2
      rw [show escapeList (d :: l'') ++ '"' :: r2
          = escapeChar d ++ (escapeList l'' ++ '"' :: r2) from by
        simp [escapeList, List.append_assoc]] at h2
      rw [decE_escapeChar] at h2
      exact absurd h2 (by simp [decE])
  | cons c l ih =>
    intro l' r1 r2 h
    cases l' with
    | nil =>
      exfalso
      have h2 := congrArg decE h
      rw [show escapeList [] ++ '"' :: r2 = '"' :: r2 from rfl] at h2
      rw [show escapeList (c :: l) ++ '"' :: r1
          = escapeChar c ++ (escapeList l ++ '"' :: r1) from by
        simp [escapeList, List.append_assoc]] at h2
      rw [decE_escapeChar] at h2
      exact absurd h2.symm (by simp [decE])
    | cons d l'' =>
      have h2 := congrArg decE h
      rw [show escapeList (c :: l) ++ '"' :: r1
          = escapeChar c ++ (escapeList l ++ '"' :: r1) from by
        simp [escapeList, List.append_assoc]] at h2
      rw [show escapeList (d :: l'') ++ '"' :: r2
          = escapeChar d ++ (escapeList l'' ++ '"' :: r2) from by
        simp [escapeList, List.append_assoc]] at h2
      rw [decE_escapeChar, decE_escapeChar] at h2
      simp only [Option.some.injEq, Prod.mk.injEq] at h2
      obtain ⟨rfl, h3⟩ := h2
      obtain ⟨rfl, rfl⟩ := ih l'' r1 r2 h3
      exact ⟨rfl, rfl⟩

/-- Equality of JSON string-literal blocks: the escaped body plus closing
    quote determines the string and the remainder. -/
theorem jstr_block_iff (s t : String) (r1 r2 : List Char) :
    escapeList s.data ++ '"' :: r1 = escapeList t.data ++ '"' :: r2
      ↔ s = t ∧ r1 = r2 := by
  constructor
  · intro h
    obtain ⟨h1, h2⟩ := escape_block_inj s.data t.data r1 r2 h
    refine ⟨?_, h2⟩
    cases s
    cases t
    exact congrArg String.mk (by simpa using h1)
  · rintro ⟨rfl, rfl⟩
    rfl

/-- Elements of a serialized string array after the opening bracket. -/
def strArrBody : List String → List Char
  | [] => [']']
  | [x] => jstr x ++ [']']
  | x :: y :: rest => jstr x ++ ',' :: strArrBody (y :: rest)

set_option maxHeartbeats 1000000 in
theorem strArrBody_iff (xs : List String) :
    ∀ (ys : List String) (r1 r2 : List Char),
    strArrBody xs ++ r1 = strArrBody ys ++ r2 ↔ xs = ys ∧ r1 = r2 := by
  induction xs with
  | nil =>
    intro ys r1 r2
    constructor
    · intro h
      cases ys with
      | nil => simpa [strArrBody] using h
      | cons y ys' =>
        exfalso
        cases ys' <;> simp [strArrBody, jstr, List.append_assoc] at h
    · rintro ⟨rfl, rfl⟩
      rfl
  | cons x xs' ih =>
    intro ys r1 r2
    constructor
    · intro h
      cases ys with
      | nil =>
        exfalso
        cases xs' <;> simp [strArrBody, jstr, List.append_assoc] at h
      | cons y ys' =>
        cases xs' with
        | nil =>
          cases ys' with
          | nil =>
            simp only [strArrBody, jstr, List.cons_append, List.nil_append,
              List.append_assoc, List.cons.injEq, true_and] at h
            rw [jstr_block_iff] at h
            obtain ⟨rfl, h2⟩ := h
            exact ⟨rfl, by simpa using h2⟩
          | cons y2 rest2 =>
            exfalso
            simp only [strArrBody, jstr, List.cons_append, List.nil_append,
              List.append_assoc, List.cons.injEq, true_and] at h
            rw [jstr_block_iff] at h
            obtain ⟨rfl, h2⟩ := h
            simp at h2
        | cons x2 rest =>
          cases ys' with
          | nil =>
            exfalso
            simp only [strArrBody, jstr, List.cons_append, List.nil_append,
              List.append_assoc, List.cons.injEq, true_and] at h
            rw [jstr_block_iff] at h
            obtain ⟨rfl, h2⟩ := h
            simp at h2
          | cons y2 rest2 =>
            simp only [strArrBody, jstr, List.cons_append, List.nil_append,
              List.append_assoc, List.cons.injEq, true_and] at h
            rw [jstr_block_iff] at h
            obtain ⟨rfl, h2⟩ := h
            simp only [List.cons.injEq, true_and] at h2
            rw [ih (y2 :: rest2) r1 r2] at h2
            obtain ⟨h3, rfl⟩ := h2
            rw [h3]
            exact ⟨rfl, rfl⟩
    · rintro ⟨rfl, rfl⟩
      rfl

/-! ## Canonical encoding of issuer records, and the verifier on issuer-shaped warrants -/

set_option maxRecDepth 100000

theorem dumpsF_str (n : Nat) (h : n ≠ 0) (s : String) : dumpsF n (.str s) = jstr s := by
  cases n with
  | zero => exact absurd rfl h
  | succ m => rfl

theorem dumpsF_arr (n : Nat) (h : n ≠ 0) (xs : List JValue) :
    dumpsF n (.arr xs)
      = '[' :: List.intercalate [','] (xs.map (fun x => dumpsF (n - 1) x)) ++ [']'] := by
  cases n with
  | zero => exact absurd rfl h
  | succ m => rfl

theorem dumpsF_obj (n : Nat) (h : n ≠ 0) (kvs : List (String × JValue)) :
    dumpsF n (.obj kvs)
      = '\x7b' :: List.intercalate [',']
          ((sortByKey (kvs.map (fun p => (p.1, dumpsF (n - 1) p.2)))).map
            (fun q => jstr q.1 ++ ':' :: q.2)) ++ ['\x7d'] := by
  cases n with
  | zero => exact absurd rfl h
  | succ m => rfl

theorem intercalate_comma_cons2 (a b : List Char) (rest : List (List Char)) :
    List.intercalate [','] (a :: b :: rest)
      = a ++ ',' :: List.intercalate [','] (b :: rest) := by
  simp [List.intercalate, List.flatten]

/-- The canonical encoding of a warrant's content, written out: keys sorted
    at every level, every string field escaped in place. -/
def encodeContent (c : WarrantContent) : List Char :=
  "\x7b\"claims\":\x7b\"actor\":\"".data ++ escapeList c.actor.data
  ++ "\",\"commit_sha\":\"".data ++ escapeList c.commit_sha.data
  ++ "\",\"host_platform\":\"".data ++ escapeList c.host_platform.data
  ++ "\",\"ref\":\"".data ++ escapeList c.ref.data
  ++ "\",\"repo\":\"".data ++ escapeList c.repo.data
  ++ "\",\"run_id\":\"".data ++ escapeList c.run_id.data
  ++ "\",\"workflow\":\"".data ++ escapeList c.workflow.data
  ++ "\"\x7d,\"expires_at\":\"".data ++ escapeList c.expires_at.data
  ++ "\",\"issued_at\":\"".data ++ escapeList c.issued_at.data
  ++ "\",\"issuer\":\"".data ++ escapeList c.issuer.data
  ++ "\",\"policy\":\x7b\"bundle_sha256\":\"".data ++ escapeList c.bundle_sha256.data
  ++ "\"\x7d,\"scope\":\x7b\"action\":\"".data ++ escapeList c.scope_action.data
  ++ "\",\"module\":\"".data ++ escapeList c.scope_module.data
  ++ "\",\"permissions_intent\":[".data ++ strArrBody c.permissions_intent
  ++ ",\"target\":\"".data ++ escapeList c.scope_target.data
  ++ "\"\x7d,\"subject\":\x7b\"id\":\"".data ++ escapeList c.subject_id.data
  ++ "\",\"notes\":\"".data ++ escapeList c.subject_notes.data
  ++ "\",\"type\":\"".data ++ escapeList c.subject_type.data
  ++ "\"\x7d,\"warrant_id\":\"".data ++ escapeList c.warrant_id.data
  ++ "\"\x7d".data

theorem strArrBody_of_map (m : Nat) (h : m ≠ 0) (xs : List String) :
    List.intercalate [','] ((xs.map JValue.str).map (fun x => dumpsF m x)) ++ [']']
      = strArrBody xs := by
  induction xs with
  | nil => rfl
  | cons x rest ih =>
    cases rest with
    | nil => simp [strArrBody, List.intercalate, dumpsF_str m h]
    | cons y rest2 =>
      simp only [List.map_cons] at ih ⊢
      rw [intercalate_comma_cons2, dumpsF_str m h]
      simp only [strArrBody, ← ih]
      simp [List.append_assoc]

theorem dumpsF_str_arr (n : Nat) (h1 : n ≠ 0) (h2 : n - 1 ≠ 0) (xs : List String) :
    dumpsF n (.arr (xs.map JValue.str)) = '[' :: strArrBody xs := by
  rw [dumpsF_arr n h1, ← strArrBody_of_map (n - 1) h2 xs]
  simp [List.cons_append]

set_option maxHeartbeats 4000000 in
theorem canonical_contentJson (c : WarrantContent) :
    _canonical_payload (contentJson c) = encodeContent c := by
  have hpop : popSignature (contentJson c) = contentJson c := rfl
  unfold _canonical_payload
  rw [hpop]
  unfold dumpsSort RECLIMIT contentJson contentFields
  rw [dumpsF_obj 1000 (by norm_num)]
  norm_num [List.map, dumpsF_str, dumpsF_obj,
    dumpsF_str_arr 998 (by norm_num) (by norm_num)]
  simp +decide [sortByKey, insertByKey, charListLe, jstr, escapeList, escapeChar,
    List.intercalate, List.intersperse, encodeContent, List.append_assoc]

set_option maxHeartbeats 2000000 in
theorem encodeContent_inj (c1 c2 : WarrantContent)
    (h : encodeContent c1 = encodeContent c2) : c1 = c2 := by
  unfold encodeContent at h
  simp only [show ("\x7b\"claims\":\x7b\"actor\":\"".data : List Char)
      = '\x7b' :: '"' :: 'c' :: 'l' :: 'a' :: 'i' :: 'm' :: 's' :: '"' :: ':'
        :: '\x7b' :: '"' :: 'a' :: 'c' :: 't' :: 'o' :: 'r' :: '"' :: ':' :: '"' :: [] from rfl] at h
  simp [List.append_assoc, List.cons.injEq, jstr_block_iff, strArrBody_iff] at h
  obtain ⟨h1, h2, h3, h4, h5, h6, h7, h8, h9, h10, h11, h12, h13, h14, h15, h16,
    h17, h18, h19⟩ := h
  have h20 : c1.warrant_id = c2.warrant_id :=
    ((jstr_block_iff c1.warrant_id c2.warrant_id [] []).mp (by rw [h19])).1
  cases c1
  cases c2
  simp_all

theorem canonical_signedJson (c : WarrantContent) (pki : String) (sg : Sig) :
    _canonical_payload (signedJson c pki sg) = encodeContent c := by
  have hpop : popSignature (signedJson c pki sg) = contentJson c := rfl
  have h2 := canonical_contentJson c
  unfold _canonical_payload at h2 ⊢
  rw [hpop]
  rw [show popSignature (contentJson c) = contentJson c from rfl] at h2
  exact h2

theorem pyOr_str (s : String) : pyOr (.str s) (.str "") = .str s := by
  by_cases h : s = "" <;> simp [pyOr, jfalsy, h]

/-- The record-level verdict of the verification pipeline on an
    Issuer-shaped warrant. -/
def verifyRec (c : WarrantContent) (sg : Sig) (pk eb orp ocs : String)
    (mt now : Int) : WarrantDecision :=
  match _parse_dt c.issued_at with
  | none => ⟨false, .VERIFICATION_ERROR, none⟩
  | some issued =>
    match _parse_dt c.expires_at with
    | none => ⟨false, .VERIFICATION_ERROR, none⟩
    | some expires =>
      if expires ≤ now then ⟨false, .EXPIRED, none⟩
      else if issued > now then ⟨false, .ISSUED_IN_FUTURE, none⟩
      else if expires - issued > mt then ⟨false, .TTL_TOO_LONG, none⟩
      else if pyLower c.bundle_sha256 = "" ∨ pyLower c.bundle_sha256 ≠ pyLower eb then
        ⟨false, .POLICY_HASH_MISMATCH, none⟩
      else if pyLower c.repo ≠ pyLower orp then ⟨false, .REPO_MISMATCH, none⟩
      else if pyLower c.commit_sha ≠ pyLower ocs then ⟨false, .COMMIT_MISMATCH, none⟩
      else
        match keyDecode (pstrip pk).data with
        | none => ⟨false, .VERIFICATION_ERROR, none⟩
        | some pub =>
          if sg.key = pub ∧ sg.msg = encodeContent c then
            ⟨true, .OK, some (_sha256_hex (encodeContent c))⟩
          else ⟨false, .BAD_SIGNATURE, none⟩

theorem optOr_str (s : String) : optOr (some (.str s)) (.str "") = .str s := by
  by_cases h : s = "" <;> simp [optOr, pyOr, jfalsy, h]

set_option maxHeartbeats 4000000 in
theorem verify_warrant_signedJson (c : WarrantContent) (pki : String) (sg : Sig)
    (pk eb orp ocs : String) (mt now : Int) :
    verify_warrant (signedJson c pki sg) pk eb orp ocs mt now
      = verifyRec c sg pk eb orp ocs mt now := by
  have h1 : dictGet (signedJson c pki sg) "signature"
      = .ok (some (signatureObj pki sg)) := rfl
  have h1b : optOr (some (signatureObj pki sg)) (.obj []) = signatureObj pki sg := rfl
  have h2 : dictGet (signatureObj pki sg) "alg" = .ok (some (.str "ed25519")) := rfl
  have h3 : dictIndex (signedJson c pki sg) "issued_at" = .ok (.str c.issued_at) := rfl
  have h4 : dictIndex (signedJson c pki sg) "expires_at" = .ok (.str c.expires_at) := rfl
  have h5 : dictGet (signedJson c pki sg) "policy"
      = .ok (some (.obj [("bundle_sha256", .str c.bundle_sha256)])) := rfl
  have h5b : optOr (some (JValue.obj [("bundle_sha256", JValue.str c.bundle_sha256)]))
      (.obj []) = .obj [("bundle_sha256", .str c.bundle_sha256)] := rfl
  have h6 : dictGet (JValue.obj [("bundle_sha256", JValue.str c.bundle_sha256)])
      "bundle_sha256" = .ok (some (.str c.bundle_sha256)) := rfl
  have h7 : dictGet (signedJson c pki sg) "claims"
      = .ok (some (.obj [("host_platform", .str c.host_platform),
          ("repo", .str c.repo), ("ref", .str c.ref),
          ("commit_sha", .str c.commit_sha), ("run_id", .str c.run_id),
          ("workflow", .str c.workflow), ("actor", .str c.actor)])) := rfl
  have h7b : optOr (some (JValue.obj [("host_platform", JValue.str c.host_platform),
          ("repo", JValue.str c.repo), ("ref", JValue.str c.ref),
          ("commit_sha", JValue.str c.commit_sha), ("run_id", JValue.str c.run_id),
          ("workflow", JValue.str c.workflow), ("actor", JValue.str c.actor)]))
      (.obj [])
      = .obj [("host_platform", .str c.host_platform),
          ("repo", .str c.repo), ("ref", .str c.ref),
          ("commit_sha", .str c.commit_sha), ("run_id", .str c.run_id),
          ("workflow", .str c.workflow), ("actor", .str c.actor)] := rfl
  have h8 : dictGet (JValue.obj [("host_platform", JValue.str c.host_platform),
          ("repo", JValue.str c.repo), ("ref", JValue.str c.ref),
          ("commit_sha", JValue.str c.commit_sha), ("run_id", JValue.str c.run_id),
          ("workflow", JValue.str c.workflow), ("actor", JValue.str c.actor)])
      "repo" = .ok (some (.str c.repo)) := rfl
  have h9 : dictGet (JValue.obj [("host_platform", JValue.str c.host_platform),
          ("repo", JValue.str c.repo), ("ref", JValue.str c.ref),
          ("commit_sha", JValue.str c.commit_sha), ("run_id", JValue.str c.run_id),
          ("workflow", JValue.str c.workflow), ("actor", JValue.str c.actor)])
      "commit_sha" = .ok (some (.str c.commit_sha)) := rfl
  have h10 : dictGet (signatureObj pki sg) "sig_b64"
      = .ok (some (.str ⟨sigEncode sg⟩)) := rfl
  have hstr : ∀ s : String, strLower (JValue.str s) = .ok (pyLower s) := fun _ => rfl
  have hastr : ∀ s : String, asStr (JValue.str s) = .ok s := fun _ => rfl
  unfold verify_warrant verifyWarrantBody verifyRec
  simp only [h1, h1b, h2, h3, h4, h5, h5b, h6, h7, h7b, h8, h9, h10, optOr_str,
    hstr, hastr, b64decode_sig_encode, canonical_signedJson, parse_dt_j,
    b64decode_key, nacl_verify]
  rcases hp1 : _parse_dt c.issued_at with _ | issued <;>
    rcases hp2 : _parse_dt c.expires_at with _ | expires <;>
      simp only [errReason]
  rcases hk : keyDecode (pstrip pk).data with _ | pub <;>
    split_ifs <;> simp [errReason] <;>
      by_cases hv : sg.key = pub ∧ sg.msg = encodeContent c <;> simp [hv]

/-! ## The claims -/

/-- Lowering a string yields the empty string only for the empty string. -/
theorem pyLower_eq_empty (s : String) : pyLower s = "" ↔ s = "" := by
  rw [String.ext_iff, String.ext_iff]
  simp [pyLower]

/-- The issuer-side key encoding decodes to the same key after `.strip()`. -/
theorem keyDecode_pstrip_keyEncode (k : Nat) :
    keyDecode (pstrip (keyEncode k)).data = some k := by
  have h := b64decode_key_encode k
  unfold b64decode_key at h
  rcases hk : keyDecode (pstrip (keyEncode k)).data with _ | k'
  · rw [hk] at h
    exact absurd h (by simp)
  · rw [hk] at h
    simp only [Except.ok.injEq] at h
    rw [h]

/-- The minted signature's message is the canonical encoding of the minted
    content record. -/
theorem mintSig_msg (a : MintInputs) :
    (mintSig a).msg = encodeContent (mintRecord a) := by
  unfold mintSig ed25519_sign
  exact canonical_contentJson (mintRecord a)

def exampleMint : MintInputs :=
  { issuer := "stegverse-issuer", public_key_id := "k1", priv := 7,
    agent := "GrantFinder-001", moduleName := "StegVerse-Labs/StegAgents",
    bundle_sha256 := "abc123", host_platform := "github", repo := "org/repo",
    commit_sha := "deadbeef", ref := "refs/heads/main", run_id := "42",
    workflow := "wf", actor := "alice", warrant_id_env := none,
    ttl_seconds := 600, nowMint := 1760000000 }

/-- C1.  Round trip: a warrant minted with valid inputs (non-empty agent,
    repo, commit, bundle hash; TTL within the verifier's bound) verifies
    with `ok = true` and reason `OK` under the issuer's public key, the
    minted bundle hash, the minted repo/commit, and any clock inside
    `[issued_at, expires_at)`. -/
theorem C1_mint_verify_roundtrip (a : MintInputs) (mt now : Int)
    (hagent : a.agent ≠ "") (hrepo : a.repo ≠ "") (hsha : a.commit_sha ≠ "")
    (hbundle : a.bundle_sha256 ≠ "")
    (httl : a.ttl_seconds ≤ mt)
    (h0 : 0 ≤ a.nowMint) (h1 : a.nowMint + a.ttl_seconds < 250000000000)
    (hn1 : a.nowMint ≤ now) (hn2 : now < a.nowMint + a.ttl_seconds) :
    mint_warrant_main a = .ok (mintSigned a) ∧
    verify_warrant (mintSigned a) (keyEncode (pubOfPriv a.priv))
        a.bundle_sha256 a.repo a.commit_sha mt now
      = ⟨true, .OK, some (_sha256_hex (encodeContent (mintRecord a)))⟩ := by
  constructor
  · unfold mint_warrant_main
    rw [if_neg hagent, if_neg (by push_neg; exact ⟨hrepo, hsha⟩)]
  · rw [mintSigned, verify_warrant_signedJson]
    unfold verifyRec
    have hp1 : _parse_dt (mintRecord a).issued_at = some a.nowMint :=
      parse_iso_roundtrip a.nowMint h0 (by omega)
    have hp2 : _parse_dt (mintRecord a).expires_at
        = some (a.nowMint + a.ttl_seconds) :=
      parse_iso_roundtrip (a.nowMint + a.ttl_seconds) (by omega) h1
    simp only [hp1, hp2]
    rw [if_neg (by omega), if_neg (by omega), if_neg (by omega)]
    have hbv : (mintRecord a).bundle_sha256 = a.bundle_sha256 := rfl
    rw [if_neg (by
      push_neg
      rw [hbv]
      exact ⟨fun he => hbundle ((pyLower_eq_empty _).mp he), rfl⟩)]
    rw [if_neg (show ¬ pyLower (mintRecord a).repo ≠ pyLower a.repo from
      not_not_intro rfl)]
    rw [if_neg (show ¬ pyLower (mintRecord a).commit_sha ≠ pyLower a.commit_sha
      from not_not_intro rfl)]
    simp only [keyDecode_pstrip_keyEncode]
    rw [if_pos ⟨rfl, mintSig_msg a⟩]

theorem C1_mint_verify_roundtrip_witness :
    mint_warrant_main exampleMint = .ok (mintSigned exampleMint) ∧
    verify_warrant (mintSigned exampleMint) (keyEncode (pubOfPriv exampleMint.priv))
        exampleMint.bundle_sha256 exampleMint.repo exampleMint.commit_sha
        900 1760000100
      = ⟨true, .OK, some (_sha256_hex (encodeContent (mintRecord exampleMint)))⟩ :=
  C1_mint_verify_roundtrip exampleMint 900 1760000100 (by decide) (by decide)
    (by decide) (by decide) (by decide) (by decide) (by decide) (by decide)
    (by decide)

/-- C2, counterexample.  A post-mint mutation of the `claims.repo` field
    (one of the claim's quantified single-field mutations) fails with
    `REPO_MISMATCH`, not `BAD_SIGNATURE`, under verifier inputs that accept
    the unmutated warrant. -/
theorem C2_mutation_counterexample :
    verify_warrant (mintSigned exampleMint) (keyEncode (pubOfPriv exampleMint.priv))
        "abc123" "org/repo" "deadbeef" 900 1760000100
      = ⟨true, .OK, some (_sha256_hex (encodeContent (mintRecord exampleMint)))⟩ ∧
    verify_warrant
        (signedJson { mintRecord exampleMint with repo := "org/other" }
          exampleMint.public_key_id (mintSig exampleMint))
        (keyEncode (pubOfPriv exampleMint.priv))
        "abc123" "org/repo" "deadbeef" 900 1760000100
      = ⟨false, .REPO_MISMATCH, none⟩ := by
  constructor
  · decide
  · decide

/-- C2, amended.  Any change to the signed content (any record other than
    the minted one, carried over the minted signature) is rejected: the
    verifier never returns `ok = true`, whatever the failure reason of the
    stage that catches it. -/
theorem C2_mutation_never_accepted (a : MintInputs) (c : WarrantContent)
    (pki pk eb orp ocs : String) (mt now : Int) (hne : c ≠ mintRecord a) :
    (verify_warrant (signedJson c pki (mintSig a)) pk eb orp ocs mt now).ok
      = false := by
  rw [verify_warrant_signedJson]
  unfold verifyRec
  rcases h1 : _parse_dt c.issued_at with _ | issued
  · rfl
  rcases h2 : _parse_dt c.expires_at with _ | expires
  · rfl
  dsimp only
  split_ifs <;> try rfl
  rcases hk : keyDecode (pstrip pk).data with _ | pub
  · rfl
  dsimp only
  by_cases hv : (mintSig a).key = pub ∧ (mintSig a).msg = encodeContent c
  · have heq : encodeContent (mintRecord a) = encodeContent c :=
      (mintSig_msg a).symm.trans hv.2
    exact absurd (encodeContent_inj _ _ heq).symm hne
  · rw [if_neg hv]

theorem C2_mutation_never_accepted_witness :
    (verify_warrant
        (signedJson { mintRecord exampleMint with scope_target := "Other-002" }
          exampleMint.public_key_id (mintSig exampleMint))
        (keyEncode (pubOfPriv exampleMint.priv))
        "abc123" "org/repo" "deadbeef" 900 1760000100).ok = false :=
  C2_mutation_never_accepted exampleMint
    { mintRecord exampleMint with scope_target := "Other-002" }
    exampleMint.public_key_id (keyEncode (pubOfPriv exampleMint.priv))
    "abc123" "org/repo" "deadbeef" 900 1760000100 (by decide)

/-- C3.  Fail-closed totality: `verify_warrant` is a total function into
    decisions; every exception the body raises is caught and converted to
    a negative decision (`ok = false`), and a successful decision can only
    come from the body running to completion. -/
theorem C3_fail_closed (w : JValue) (pk eb orp ocs : String) (mt now : Int) :
    (∀ e, verifyWarrantBody w pk eb orp ocs mt now = .error e →
      verify_warrant w pk eb orp ocs mt now = ⟨false, errReason e, none⟩) ∧
    (∀ d, verifyWarrantBody w pk eb orp ocs mt now = .ok d →
      verify_warrant w pk eb orp ocs mt now = d) := by
  constructor
  · intro e he
    unfold verify_warrant
    rw [he]
  · intro d hd
    unfold verify_warrant
    rw [hd]

theorem C3_fail_closed_witness :
    verifyWarrantBody (.str "junk") "pk" "b" "r" "c" 900 0 = .error .typeErr ∧
    verify_warrant (.str "junk") "pk" "b" "r" "c" 900 0
      = ⟨false, errReason .typeErr, none⟩ :=
  ⟨rfl, (C3_fail_closed (.str "junk") "pk" "b" "r" "c" 900 0).1 .typeErr rfl⟩

/-- C5.  Identity binding: once the algorithm, temporal and policy stages
    have passed, `claims.repo` and `claims.commit_sha` are compared
    case-insensitively (both sides lowered) against the observed values; a
    repo difference yields `REPO_MISMATCH` and, with the repo agreeing, a
    commit difference yields `COMMIT_MISMATCH` — regardless of the
    signature, which is checked only later. -/
theorem C5_identity_binding (c : WarrantContent) (pki : String) (sg : Sig)
    (pk eb orp ocs : String) (mt now issued expires : Int)
    (ht1 : _parse_dt c.issued_at = some issued)
    (ht2 : _parse_dt c.expires_at = some expires)
    (hc1 : ¬ expires ≤ now) (hc2 : ¬ issued > now)
    (hc3 : ¬ expires - issued > mt)
    (hpol : ¬ (pyLower c.bundle_sha256 = "" ∨
      pyLower c.bundle_sha256 ≠ pyLower eb)) :
    (pyLower c.repo ≠ pyLower orp →
      verify_warrant (signedJson c pki sg) pk eb orp ocs mt now
        = ⟨false, .REPO_MISMATCH, none⟩) ∧
    (pyLower c.repo = pyLower orp → pyLower c.commit_sha ≠ pyLower ocs →
      verify_warrant (signedJson c pki sg) pk eb orp ocs mt now
        = ⟨false, .COMMIT_MISMATCH, none⟩) := by
  rw [verify_warrant_signedJson]
  unfold verifyRec
  simp only [ht1, ht2]
  rw [if_neg hc1, if_neg hc2, if_neg hc3, if_neg hpol]
  constructor
  · intro h
    rw [if_pos h]
  · intro h1 h2
    rw [if_neg (not_not_intro h1), if_pos h2]

theorem C5_identity_binding_witness :
    (pyLower (mintRecord exampleMint).repo ≠ pyLower "org/repo" →
      verify_warrant (signedJson (mintRecord exampleMint) "k1" (mintSig exampleMint))
          (keyEncode (pubOfPriv 7)) "abc123" "org/repo" "cafef00d" 900 1760000100
        = ⟨false, .REPO_MISMATCH, none⟩) ∧
    (pyLower (mintRecord exampleMint).repo = pyLower "org/repo" →
      pyLower (mintRecord exampleMint).commit_sha ≠ pyLower "cafef00d" →
      verify_warrant (signedJson (mintRecord exampleMint) "k1" (mintSig exampleMint))
          (keyEncode (pubOfPriv 7)) "abc123" "org/repo" "cafef00d" 900 1760000100
        = ⟨false, .COMMIT_MISMATCH, none⟩) :=
  C5_identity_binding (mintRecord exampleMint) "k1" (mintSig exampleMint)
    (keyEncode (pubOfPriv 7)) "abc123" "org/repo" "cafef00d" 900 1760000100
    1760000000 1760000600 (by decide) (by decide) (by decide) (by decide)
    (by decide) (by decide)

/-- C6.  Expiry boundary: with both timestamps parseable, a clock reading
    equal to `expires_at` is rejected as `EXPIRED` (the comparison is
    `expires_at <= now`), while one second earlier the expiry check cannot
    be the reason for rejection. -/
theorem C6_expiry_boundary (c : WarrantContent) (pki : String) (sg : Sig)
    (pk eb orp ocs : String) (mt issued expires : Int)
    (ht1 : _parse_dt c.issued_at = some issued)
    (ht2 : _parse_dt c.expires_at = some expires) :
    verify_warrant (signedJson c pki sg) pk eb orp ocs mt expires
      = ⟨false, .EXPIRED, none⟩ ∧
    (verify_warrant (signedJson c pki sg) pk eb orp ocs mt
      (expires - 1)).reason ≠ .EXPIRED := by
  constructor
  · rw [verify_warrant_signedJson]
    unfold verifyRec
    simp only [ht1, ht2]
    rw [if_pos (le_refl expires)]
  · rw [verify_warrant_signedJson]
    unfold verifyRec
    simp only [ht1, ht2]
    rw [if_neg (by omega)]
    split_ifs <;> try simp
    rcases keyDecode (pstrip pk).data with _ | pub
    · simp
    by_cases hv : sg.key = pub ∧ sg.msg = encodeContent c <;> simp [hv]

theorem C6_expiry_boundary_witness :
    verify_warrant (signedJson (mintRecord exampleMint) "k1" (mintSig exampleMint))
        (keyEncode (pubOfPriv 7)) "abc123" "org/repo" "deadbeef" 900 1760000600
      = ⟨false, .EXPIRED, none⟩ ∧
    (verify_warrant (signedJson (mintRecord exampleMint) "k1" (mintSig exampleMint))
        (keyEncode (pubOfPriv 7)) "abc123" "org/repo" "deadbeef" 900
        (1760000600 - 1)).reason ≠ .EXPIRED :=
  C6_expiry_boundary (mintRecord exampleMint) "k1" (mintSig exampleMint)
    (keyEncode (pubOfPriv 7)) "abc123" "org/repo" "deadbeef" 900
    1760000000 1760000600 (by decide) (by decide)

/-- C7.  TTL enforcement: a warrant that reaches the temporal stage and is
    neither expired nor future-dated, but whose lifetime
    `expires_at - issued_at` exceeds `max_ttl_seconds`, is rejected with
    `TTL_TOO_LONG`. -/
theorem C7_ttl_enforcement (c : WarrantContent) (pki : String) (sg : Sig)
    (pk eb orp ocs : String) (mt now issued expires : Int)
    (ht1 : _parse_dt c.issued_at = some issued)
    (ht2 : _parse_dt c.expires_at = some expires)
    (hc1 : ¬ expires ≤ now) (hc2 : ¬ issued > now)
    (h : expires - issued > mt) :
    verify_warrant (signedJson c pki sg) pk eb orp ocs mt now
      = ⟨false, .TTL_TOO_LONG, none⟩ := by
  rw [verify_warrant_signedJson]
  unfold verifyRec
  simp only [ht1, ht2]
  rw [if_neg hc1, if_neg hc2, if_pos h]

theorem C7_ttl_enforcement_witness :
    verify_warrant (mintSigned { exampleMint with ttl_seconds := 901 })
        (keyEncode (pubOfPriv 7)) "abc123" "org/repo" "deadbeef" 900 1760000000
      = ⟨false, .TTL_TOO_LONG, none⟩ :=
  C7_ttl_enforcement (mintRecord { exampleMint with ttl_seconds := 901 }) "k1"
    (mintSig { exampleMint with ttl_seconds := 901 })
    (keyEncode (pubOfPriv 7)) "abc123" "org/repo" "deadbeef" 900 1760000000
    1760000000 1760000901 (by decide) (by decide) (by decide) (by decide)
    (by decide)

/-- C8, counterexample.  There is no key provider: a warrant whose
    `signature.public_key_id` names a key absent from any map (an arbitrary
    label) still verifies `ok = true` under the `issuer_pubkey_b64`
    argument, instead of failing with an `UNKNOWN_KEY` decision (no such
    reason exists in the verifier). -/
theorem C8_no_key_provider_counterexample :
    verify_warrant
        (signedJson (mintRecord exampleMint) "no-such-key" (mintSig exampleMint))
        (keyEncode (pubOfPriv 7)) "abc123" "org/repo" "deadbeef" 900 1760000100
      = ⟨true, .OK, some (_sha256_hex (encodeContent (mintRecord exampleMint)))⟩ := by
  decide

/-- C8, amended.  The verification key comes solely from the
    `issuer_pubkey_b64` argument; when that argument fails to decode to a
    key, the warrant that reaches the cryptographic stage is rejected with
    an ordinary `VERIFICATION_ERROR` decision (the caught `ValueError`),
    not an exception escaping to the caller. -/
theorem C8_undecodable_key_rejected (c : WarrantContent) (pki : String)
    (sg : Sig) (pk eb orp ocs : String) (mt now issued expires : Int)
    (ht1 : _parse_dt c.issued_at = some issued)
    (ht2 : _parse_dt c.expires_at = some expires)
    (hc1 : ¬ expires ≤ now) (hc2 : ¬ issued > now)
    (hc3 : ¬ expires - issued > mt)
    (hpol : ¬ (pyLower c.bundle_sha256 = "" ∨
      pyLower c.bundle_sha256 ≠ pyLower eb))
    (hrep : ¬ pyLower c.repo ≠ pyLower orp)
    (hsha : ¬ pyLower c.commit_sha ≠ pyLower ocs)
    (hk : keyDecode (pstrip pk).data = none) :
    verify_warrant (signedJson c pki sg) pk eb orp ocs mt now
      = ⟨false, .VERIFICATION_ERROR, none⟩ := by
  rw [verify_warrant_signedJson]
  unfold verifyRec
  simp only [ht1, ht2, hk]
  rw [if_neg hc1, if_neg hc2, if_neg hc3, if_neg hpol, if_neg hrep, if_neg hsha]

theorem C8_undecodable_key_rejected_witness :
    verify_warrant (signedJson (mintRecord exampleMint) "k1" (mintSig exampleMint))
        "!!!" "abc123" "org/repo" "deadbeef" 900 1760000100
      = ⟨false, .VERIFICATION_ERROR, none⟩ :=
  C8_undecodable_key_rejected (mintRecord exampleMint) "k1"
    (mintSig exampleMint) "!!!" "abc123" "org/repo" "deadbeef" 900 1760000100
    1760000000 1760000600 (by decide) (by decide) (by decide) (by decide)
    (by decide) (by decide) (by decide) (by decide) (by decide)

/-- C9, counterexample.  An empty `expected_bundle_sha256` (the verifier's
    own configuration missing) does not abort: on an otherwise valid,
    correctly signed warrant the verifier returns the ordinary negative
    decision `POLICY_HASH_MISMATCH`, folding the missing configuration into
    a DENY-style decision. -/
theorem C9_missing_config_counterexample :
    verify_warrant (mintSigned exampleMint) (keyEncode (pubOfPriv 7))
        "" "org/repo" "deadbeef" 900 1760000100
      = ⟨false, .POLICY_HASH_MISMATCH, none⟩ := by
  decide

/-- C9, amended.  With an empty `expected_bundle_sha256`, every warrant
    that passes the temporal stage receives the ordinary decision
    `POLICY_HASH_MISMATCH` (`not bundle_sha or bundle_sha != expected`
    is true whether or not the warrant carries a hash); no fatal fault
    distinguishes missing verifier configuration from a warrant mismatch. -/
theorem C9_missing_config_is_ordinary_decision (c : WarrantContent)
    (pki : String) (sg : Sig) (pk orp ocs : String) (mt now issued expires : Int)
    (ht1 : _parse_dt c.issued_at = some issued)
    (ht2 : _parse_dt c.expires_at = some expires)
    (hc1 : ¬ expires ≤ now) (hc2 : ¬ issued > now)
    (hc3 : ¬ expires - issued > mt) :
    verify_warrant (signedJson c pki sg) pk "" orp ocs mt now
      = ⟨false, .POLICY_HASH_MISMATCH, none⟩ := by
  rw [verify_warrant_signedJson]
  unfold verifyRec
  simp only [ht1, ht2]
  rw [if_neg hc1, if_neg hc2, if_neg hc3]
  have hcond : pyLower c.bundle_sha256 = "" ∨
      pyLower c.bundle_sha256 ≠ pyLower "" := by
    by_cases hb : pyLower c.bundle_sha256 = ""
    · exact Or.inl hb
    · exact Or.inr (by
        rw [show pyLower "" = "" from rfl]
        exact hb)
  rw [if_pos hcond]

theorem C9_missing_config_is_ordinary_decision_witness :
    verify_warrant (signedJson (mintRecord exampleMint) "k1" (mintSig exampleMint))
        (keyEncode (pubOfPriv 7)) "" "org/repo" "deadbeef" 900 1760000100
      = ⟨false, .POLICY_HASH_MISMATCH, none⟩ :=
  C9_missing_config_is_ordinary_decision (mintRecord exampleMint) "k1"
    (mintSig exampleMint) (keyEncode (pubOfPriv 7)) "org/repo" "deadbeef"
    900 1760000100 1760000000 1760000600 (by decide) (by decide) (by decide)
    (by decide) (by decide)

/-- C10.  `signature.public_key_id` does not influence the decision: two
    warrants identical except for that field receive identical decisions
    from every invocation of the verifier — the key is taken solely from
    the `issuer_pubkey_b64` argument, and the field is popped from the
    signed payload along with the rest of `signature`. -/
theorem C10_public_key_id_irrelevant (c : WarrantContent) (pki1 pki2 : String)
    (sg : Sig) (pk eb orp ocs : String) (mt now : Int) :
    verify_warrant (signedJson c pki1 sg) pk eb orp ocs mt now
      = verify_warrant (signedJson c pki2 sg) pk eb orp ocs mt now := by
  rw [verify_warrant_signedJson, verify_warrant_signedJson]

/-! ## Key-order independence of the canonical encoding -/

theorem charListLe_total (a b : List Char) :
    charListLe a b = true ∨ charListLe b a = true := by
  induction a generalizing b with
  | nil => exact Or.inl rfl
  | cons c a ih =>
    cases b with
    | nil => exact Or.inr rfl
    | cons d b =>
      unfold charListLe
      by_cases h1 : c.toNat < d.toNat
      · left
        rw [if_pos h1]
      · by_cases h2 : d.toNat < c.toNat
        · right
          rw [if_pos h2]
        · rw [if_neg h1, if_neg h2, if_neg h2, if_neg h1]
          exact ih b

theorem char_toNat_inj (c d : Char) (h : c.toNat = d.toNat) : c = d := by
  have h2 := congrArg Char.ofNat h
  rwa [Char.ofNat_toNat, Char.ofNat_toNat] at h2

theorem string_data_ext (s t : String) (h : s.data = t.data) : s = t := by
  cases s
  cases t
  exact congrArg String.mk h

theorem charListLe_antisymm (a b : List Char) (h1 : charListLe a b = true)
    (h2 : charListLe b a = true) : a = b := by
  induction a generalizing b with
  | nil =>
    cases b with
    | nil => rfl
    | cons d b => simp [charListLe] at h2
  | cons c a ih =>
    cases b with
    | nil => simp [charListLe] at h1
    | cons d b =>
      unfold charListLe at h1 h2
      by_cases hcd : c.toNat < d.toNat
      · rw [if_pos hcd] at h1
        rw [if_neg (by omega), if_pos hcd] at h2
        exact absurd h2 (by simp)
      · by_cases hdc : d.toNat < c.toNat
        · rw [if_neg hcd, if_pos hdc] at h1
          exact absurd h1 (by simp)
        · rw [if_neg hcd, if_neg hdc] at h1
          rw [if_neg hdc, if_neg hcd] at h2
          have hc : c = d := char_toNat_inj c d (by omega)
          rw [hc, ih b h1 h2]

theorem charListLe_trans (a b c : List Char) (h1 : charListLe a b = true)
    (h2 : charListLe b c = true) : charListLe a c = true := by
  induction a generalizing b c with
  | nil => rfl
  | cons x a ih =>
    cases b with
    | nil => simp [charListLe] at h1
    | cons y b =>
      cases c with
      | nil => simp [charListLe] at h2
      | cons z c =>
        unfold charListLe at h1 h2 ⊢
        by_cases hxy : x.toNat < y.toNat
        · by_cases hyz : y.toNat < z.toNat
          · rw [if_pos (by omega)]
          · by_cases hzy : z.toNat < y.toNat
            · rw [if_neg hyz, if_pos hzy] at h2
              exact absurd h2 (by simp)
            · rw [if_pos (by omega)]
        · by_cases hyx : y.toNat < x.toNat
          · rw [if_neg hxy, if_pos hyx] at h1
            exact absurd h1 (by simp)
          · rw [if_neg hxy, if_neg hyx] at h1
            by_cases hyz : y.toNat < z.toNat
            · rw [if_pos (by omega)]
            · by_cases hzy : z.toNat < y.toNat
              · rw [if_neg hyz, if_pos hzy] at h2
                exact absurd h2 (by simp)
              · rw [if_neg hyz, if_neg hzy] at h2
                rw [if_neg (by omega), if_neg (by omega)]
                exact ih b c h1 h2

/-- The key order `sort_keys=True` sorts by, as a relation on entries. -/
def keyLe {α : Type} (p q : String × α) : Prop :=
  charListLe p.1.data q.1.data = true

instance keyLe_dec {α : Type} : DecidableRel (@keyLe α) := fun p q =>
  inferInstanceAs (Decidable (charListLe p.1.data q.1.data = true))

instance keyLe_total {α : Type} : IsTotal (String × α) keyLe :=
  ⟨fun p q => charListLe_total p.1.data q.1.data⟩

instance keyLe_trans {α : Type} : IsTrans (String × α) keyLe :=
  ⟨fun p q r => charListLe_trans p.1.data q.1.data r.1.data⟩

theorem insertByKey_eq_orderedInsert {α : Type} (p : String × α)
    (l : List (String × α)) :
    insertByKey p l = List.orderedInsert keyLe p l := by
  induction l with
  | nil => rfl
  | cons q rest ih =>
    unfold insertByKey List.orderedInsert
    by_cases h : keyLe p q
    · have hb : charListLe p.1.data q.1.data = true := h
      rw [if_pos hb, if_pos h]
    · have hb : ¬ charListLe p.1.data q.1.data = true := h
      rw [if_neg hb, if_neg h, ih]

theorem sortByKey_eq_insertionSort {α : Type} (l : List (String × α)) :
    sortByKey l = List.insertionSort keyLe l := by
  induction l with
  | nil => rfl
  | cons p rest ih =>
    unfold sortByKey List.insertionSort
    rw [ih, insertByKey_eq_orderedInsert]

theorem sortByKey_perm {α : Type} (l : List (String × α)) :
    (sortByKey l).Perm l := by
  rw [sortByKey_eq_insertionSort]
  exact List.perm_insertionSort keyLe l

theorem sortByKey_sorted {α : Type} (l : List (String × α)) :
    (sortByKey l).Sorted keyLe := by
  rw [sortByKey_eq_insertionSort]
  exact List.sorted_insertionSort keyLe l

/-- On key-deduplicated association lists, the sorted order is a function
    of the multiset of entries alone. -/
theorem sortByKey_perm_congr {α : Type} (l1 l2 : List (String × α))
    (hp : l1.Perm l2) (hnd : (l1.map Prod.fst).Nodup) :
    sortByKey l1 = sortByKey l2 := by
  have hperm : (sortByKey l1).Perm (sortByKey l2) :=
    ((sortByKey_perm l1).trans hp).trans (sortByKey_perm l2).symm
  have hnd1 : ((sortByKey l1).map Prod.fst).Nodup :=
    (((sortByKey_perm l1).map Prod.fst).nodup_iff).mpr hnd
  have hnd2 : ((sortByKey l2).map Prod.fst).Nodup :=
    ((hperm.map Prod.fst).nodup_iff).mp hnd1
  have hne1 : (sortByKey l1).Pairwise (fun p q => p.1 ≠ q.1) :=
    (List.pairwise_map.mp hnd1)
  have hne2 : (sortByKey l2).Pairwise (fun p q => p.1 ≠ q.1) :=
    (List.pairwise_map.mp hnd2)
  have hs1 : (sortByKey l1).Pairwise (fun p q => keyLe p q ∧ p.1 ≠ q.1) :=
    (sortByKey_sorted l1).and hne1
  have hs2 : (sortByKey l2).Pairwise (fun p q => keyLe p q ∧ p.1 ≠ q.1) :=
    (sortByKey_sorted l2).and hne2
  haveI : IsAntisymm (String × α) (fun p q => keyLe p q ∧ p.1 ≠ q.1) := by
    constructor
    intro p q h1 h2
    have hk : p.1 = q.1 :=
      string_data_ext _ _ (charListLe_antisymm p.1.data q.1.data h1.1 h2.1)
    exact absurd hk h1.2
  exact List.eq_of_perm_of_sorted hperm hs1 hs2

theorem dumpsF_obj_perm (n : Nat) (h : n ≠ 0)
    (l1 l2 : List (String × JValue)) (hp : l1.Perm l2)
    (hnd : (l1.map Prod.fst).Nodup) :
    dumpsF n (.obj l1) = dumpsF n (.obj l2) := by
  rw [dumpsF_obj n h, dumpsF_obj n h]
  have hkey : sortByKey (l1.map (fun p => (p.1, dumpsF (n - 1) p.2)))
      = sortByKey (l2.map (fun p => (p.1, dumpsF (n - 1) p.2))) := by
    apply sortByKey_perm_congr
    · exact hp.map _
    · rw [List.map_map]
      exact hnd
  rw [hkey]

theorem filter_signature_contentFields (c : WarrantContent) (x : JValue) :
    (contentFields c ++ [("signature", x)]).filter
        (fun p => p.1 ≠ "signature") = contentFields c := by
  rw [List.filter_append]
  rw [show (contentFields c).filter (fun p => p.1 ≠ "signature")
    = contentFields c from rfl]
  rw [show ([(("signature" : String), x)]).filter (fun p => p.1 ≠ "signature")
    = [] from rfl]
  rw [List.append_nil]

/-- C4.  Canonicity of the canonical encoding: two content records encode
    equally exactly when they are equal (so any differing field value,
    including `permissions_intent` order or string casing, changes the
    encoding), and the encoding of a signed warrant's fields in any
    insertion order equals the encoding of the bare content — it is
    independent of key order and of the presence or value of the
    `signature` field. -/
theorem C4_canonical_encoding (c1 c2 : WarrantContent) (pki : String)
    (sg : Sig) (l : List (String × JValue))
    (hp : l.Perm (contentFields c1 ++ [("signature", signatureObj pki sg)])) :
    (_canonical_payload (contentJson c1) = _canonical_payload (contentJson c2)
      ↔ c1 = c2) ∧
    _canonical_payload (.obj l) = _canonical_payload (contentJson c1) := by
  constructor
  · constructor
    · intro h
      apply encodeContent_inj
      rw [← canonical_contentJson c1, ← canonical_contentJson c2]
      exact h
    · intro h
      rw [h]
  · show dumpsSort (popSignature (.obj l)) = _
    unfold popSignature
    have hfil : (l.filter (fun p => p.1 ≠ "signature")).Perm (contentFields c1) := by
      have := hp.filter (fun p => decide (p.1 ≠ "signature"))
      rwa [filter_signature_contentFields c1] at this
    have hnd : ((l.filter (fun p => p.1 ≠ "signature")).map Prod.fst).Nodup := by
      apply ((hfil.map Prod.fst).nodup_iff).mpr
      show ((contentFields c1).map Prod.fst).Nodup
      rw [show (contentFields c1).map Prod.fst
        = ["warrant_id", "issued_at", "expires_at", "issuer", "subject",
           "scope", "policy", "claims"] from rfl]
      decide
    have hpop : popSignature (contentJson c1) = contentJson c1 := rfl
    unfold _canonical_payload
    rw [hpop]
    unfold dumpsSort
    exact dumpsF_obj_perm RECLIMIT (by decide) _ _ hfil hnd

theorem C4_canonical_encoding_witness :
    (_canonical_payload (contentJson (mintRecord exampleMint))
        = _canonical_payload (contentJson (mintRecord exampleMint))
      ↔ mintRecord exampleMint = mintRecord exampleMint) ∧
    _canonical_payload (.obj ((contentFields (mintRecord exampleMint)
        ++ [("signature", signatureObj "k1" (mintSig exampleMint))]).reverse))
      = _canonical_payload (contentJson (mintRecord exampleMint)) :=
  C4_canonical_encoding (mintRecord exampleMint) (mintRecord exampleMint)
    "k1" (mintSig exampleMint) _ (List.reverse_perm _)
